import Mathlib

/-!
Verification of the Secure-Text-Transfer message relay server.

The repository contains two implementations of the same five-handler HTTP
API: a MongoDB-backed one (src/server.js) and a flat-file one
(src/unnamed/part_000).  Both are shallowly embedded below as pure
functions over explicit store states.  Randomness (crypto.randomBytes)
and the wall clock (Date.now) are modelled as explicit inputs supplied to
each request: a freshly generated token string and a Nat timestamp.
Express semantics used: res.json defaults to status 200,
res.status(n).json sets status n.
-/

/-- A User document of the MongoDB variant (userSchema in src/server.js):
username, publicKeyPem, token, createdAt. -/
structure MUser where
  username : String
  publicKeyPem : String
  token : String
  createdAt : Nat
deriving Repr, DecidableEq

/-- The value stored under a username key in users.json of the flat-file
variant: publicKeyPem, token, createdAt. -/
structure FUser where
  publicKeyPem : String
  token : String
  createdAt : Nat
deriving Repr, DecidableEq

/-- A message record; identical shape in both variants
(from, to, ciphertext, encryptedKey, iv, timestamp).  The field written
from_ renders the JS field named from, which Lean reserves. -/
structure Msg where
  from_ : String
  to_ : String
  ciphertext : String
  encryptedKey : String
  iv : String
  timestamp : Nat
deriving Repr, DecidableEq

/-- JSON response bodies the handlers can produce. -/
inductive RBody where
  | token (t : String)
  | publicKeyPem (pem : String)
  | ok
  | messages (ms : List Msg)
  | users (us : List String)
  | error (msg : String)
deriving Repr, DecidableEq

/-- An HTTP response: status code and JSON body. -/
structure Resp where
  status : Nat
  body : RBody
deriving Repr, DecidableEq

/-- MongoDB-variant store: the User and Message collections, as
insertion-ordered lists of documents. -/
structure MState where
  users : List MUser
  messages : List Msg
deriving Repr, DecidableEq

/-- Flat-file-variant store: users.json is a JS object (insertion-ordered
association list keyed by username), messages.json is an array. -/
structure FState where
  users : List (String × FUser)
  messages : List Msg
deriving Repr, DecidableEq

/-- The auth check shared by both variants:
the JS test (!apiKey or apiKey !== user.token) on the x-api-key header.
An absent header and the empty string are falsy, hence rejected. -/
def authFails (apiKey : Option String) (token : String) : Bool :=
  match apiKey with
  | none => true
  | some k => k = "" || k != token

/-- JS truthiness restricted to string-valued fields: a string field
fails a (!field) check exactly when it is the empty string; an absent
field is modelled by the empty string as well, since both are falsy. -/
def strFalsy (s : String) : Bool := s = ""

/-- MongoDB User.findOne with a username filter: the first document in
collection order whose username matches. -/
def findUserM (username : String) (s : MState) : Option MUser :=
  s.users.find? (fun u => u.username = username)

/-- POST /api/register, MongoDB variant (src/server.js lines 51-70):
validate fields, return the existing token if the username is taken,
otherwise create the user with the freshly generated token. -/
def registerM (username publicKeyPem freshTok : String) (now : Nat)
    (s : MState) : Resp × MState :=
  if strFalsy username || strFalsy publicKeyPem then
    (Resp.mk 400 (RBody.error "username and publicKeyPem required"), s)
  else
    match findUserM username s with
    | some existing => (Resp.mk 200 (RBody.token existing.token), s)
    | none =>
        (Resp.mk 200 (RBody.token freshTok),
         MState.mk (s.users ++ [MUser.mk username publicKeyPem freshTok now])
           s.messages)

/-- GET /api/publicKey/:username, MongoDB variant (lines 73-82). -/
def publicKeyM (username : String) (s : MState) : Resp × MState :=
  match findUserM username s with
  | none => (Resp.mk 404 (RBody.error "user not found"), s)
  | some u => (Resp.mk 200 (RBody.publicKeyPem u.publicKeyPem), s)

/-- POST /api/send, MongoDB variant (lines 85-104): validate the five
body fields, require the sender to exist, require the x-api-key header
to match the sender token, then append the message with a
server-assigned timestamp. -/
def sendM (from_ to_ ciphertext encryptedKey iv : String)
    (apiKey : Option String) (now : Nat) (s : MState) : Resp × MState :=
  if strFalsy from_ || strFalsy to_ || strFalsy ciphertext ||
      strFalsy encryptedKey || strFalsy iv then
    (Resp.mk 400 (RBody.error "missing fields"), s)
  else
    match findUserM from_ s with
    | none => (Resp.mk 400 (RBody.error "unknown sender"), s)
    | some user =>
        if authFails apiKey user.token then
          (Resp.mk 401 (RBody.error "invalid api key"), s)
        else
          (Resp.mk 200 RBody.ok,
           MState.mk s.users
             (s.messages ++ [Msg.mk from_ to_ ciphertext encryptedKey iv now]))

/-- Ordered insert used to model Message.find(..).sort with timestamp
ascending: the incoming element goes after every element whose timestamp
is at most its own, so insertion order is kept on equal timestamps. -/
def insertTs (m : Msg) : List Msg → List Msg
  | [] => [m]
  | x :: xs =>
      if x.timestamp ≤ m.timestamp then x :: insertTs m xs
      else m :: x :: xs

/-- Stable sort of a message list by ascending timestamp, modelling the
MongoDB sort on the timestamp key (ties keep insertion order). -/
def sortTs (l : List Msg) : List Msg :=
  l.foldl (fun acc m => insertTs m acc) []

/-- GET /api/messages/:username, MongoDB variant (lines 107-122):
404 for an unknown user, 401 on auth failure, otherwise all messages
addressed to the user sorted by ascending timestamp. -/
def messagesM (username : String) (apiKey : Option String)
    (s : MState) : Resp × MState :=
  match findUserM username s with
  | none => (Resp.mk 404 (RBody.error "unknown user"), s)
  | some user =>
      if authFails apiKey user.token then
        (Resp.mk 401 (RBody.error "invalid api key"), s)
      else
        (Resp.mk 200
          (RBody.messages (sortTs (s.messages.filter (fun m => m.to_ = username)))),
         s)

/-- GET /api/users, MongoDB variant (lines 125-133). -/
def usersM (s : MState) : Resp × MState :=
  (Resp.mk 200 (RBody.users (s.users.map (fun u => u.username))), s)

/-- JS object key assignment users[username] = v: replace the value in
place if the key exists, else append the new key (JS objects preserve
insertion order of string keys). -/
def setUser {α : Type} (users : List (String × α)) (username : String)
    (v : α) : List (String × α) :=
  match users with
  | [] => [(username, v)]
  | (k, w) :: rest =>
      if k = username then (k, v) :: rest
      else (k, w) :: setUser rest username v

/-- JS object key lookup users[username]. -/
def findUserF (username : String) (s : FState) : Option FUser :=
  (s.users.find? (fun p => p.1 = username)).map (fun p => p.2)

/-- POST /api/register, flat-file variant (src/unnamed/part_000 lines
27-38): validate fields, then unconditionally store a record with a
freshly generated token under the username key — an existing record is
overwritten and its token rotated. -/
def registerF (username publicKeyPem freshTok : String) (now : Nat)
    (s : FState) : Resp × FState :=
  if strFalsy username || strFalsy publicKeyPem then
    (Resp.mk 400 (RBody.error "username and publicKeyPem required"), s)
  else
    (Resp.mk 200 (RBody.token freshTok),
     FState.mk (setUser s.users username (FUser.mk publicKeyPem freshTok now))
       s.messages)

/-- GET /api/publicKey/:username, flat-file variant (lines 41-46). -/
def publicKeyF (username : String) (s : FState) : Resp × FState :=
  match findUserF username s with
  | none => (Resp.mk 404 (RBody.error "user not found"), s)
  | some u => (Resp.mk 200 (RBody.publicKeyPem u.publicKeyPem), s)

/-- POST /api/send, flat-file variant (lines 49-65). -/
def sendF (from_ to_ ciphertext encryptedKey iv : String)
    (apiKey : Option String) (now : Nat) (s : FState) : Resp × FState :=
  if strFalsy from_ || strFalsy to_ || strFalsy ciphertext ||
      strFalsy encryptedKey || strFalsy iv then
    (Resp.mk 400 (RBody.error "missing fields"), s)
  else
    match findUserF from_ s with
    | none => (Resp.mk 400 (RBody.error "unknown sender"), s)
    | some user =>
        if authFails apiKey user.token then
          (Resp.mk 401 (RBody.error "invalid api key"), s)
        else
          (Resp.mk 200 RBody.ok,
           FState.mk s.users
             (s.messages ++ [Msg.mk from_ to_ ciphertext encryptedKey iv now]))

/-- GET /api/messages/:username, flat-file variant (lines 68-79):
404 for an unknown user, 401 on auth failure, otherwise the stored
message array filtered to the recipient, in stored (insertion) order. -/
def messagesF (username : String) (apiKey : Option String)
    (s : FState) : Resp × FState :=
  match findUserF username s with
  | none => (Resp.mk 404 (RBody.error "unknown user"), s)
  | some user =>
      if authFails apiKey user.token then
        (Resp.mk 401 (RBody.error "invalid api key"), s)
      else
        (Resp.mk 200
          (RBody.messages (s.messages.filter (fun m => m.to_ = username))), s)

/-- GET /api/users, flat-file variant (lines 82-85): Object.keys. -/
def usersF (s : FState) : Resp × FState :=
  (Resp.mk 200 (RBody.users (s.users.map (fun p => p.1))), s)


/-- Contents of a JSON store file as seen by the flat-file variant:
the file may be missing, hold unparseable text, or hold parsed data. -/
inductive FileData (α : Type) where
  | missing
  | corrupt (raw : String)
  | stored (a : α)
deriving Repr, DecidableEq

/-- readJson of the flat-file variant (part_000 lines 14-21): a missing
file is created with the fallback and the fallback returned; a read or
parse failure is caught and the fallback returned silently. -/
def readJson {α : Type} (f : FileData α) (fallback : α) : α :=
  match f with
  | FileData.stored a => a
  | _ => fallback

/-- GET /api/users of the flat-file variant operating on the raw users
file through readJson (part_000 lines 82-85). -/
def usersFFile (usersFile : FileData (List (String × FUser))) : Resp :=
  Resp.mk 200 (RBody.users ((readJson usersFile []).map (fun p => p.1)))

/-- POST /api/register of the flat-file variant operating on the raw
users file through readJson and writeJson (part_000 lines 27-38); the
returned file state is what writeJson persists. -/
def registerFFile (username publicKeyPem freshTok : String) (now : Nat)
    (usersFile : FileData (List (String × FUser))) :
    Resp × FileData (List (String × FUser)) :=
  if strFalsy username || strFalsy publicKeyPem then
    (Resp.mk 400 (RBody.error "username and publicKeyPem required"), usersFile)
  else
    (Resp.mk 200 (RBody.token freshTok),
     FileData.stored
       (setUser (readJson usersFile []) username
         (FUser.mk publicKeyPem freshTok now)))

/-- GET /api/messages/:username of the MongoDB variant including its
try/catch (src/server.js lines 107-122): dbThrows abstracts the awaited
store operation throwing, which the catch turns into a 500 response. -/
def messagesMCaught (dbThrows : Bool) (username : String)
    (apiKey : Option String) (s : MState) : Resp × MState :=
  if dbThrows then (Resp.mk 500 (RBody.error "internal error"), s)
  else messagesM username apiKey s

/-- A JSON value as it arrives in a parsed request body.  Numbers are
restricted to integers (enough to express the truthiness cases); obj
stands for any object or array value, which is always truthy. -/
inductive JSVal where
  | undef
  | null
  | str (s : String)
  | num (n : Int)
  | bool (b : Bool)
  | obj
deriving Repr, DecidableEq

/-- JS truthiness: undefined, null, the empty string, 0 and false are
falsy; everything else is truthy. -/
def truthy : JSVal → Bool
  | JSVal.undef => false
  | JSVal.null => false
  | JSVal.str s => s != ""
  | JSVal.num n => n != 0
  | JSVal.bool b => b
  | JSVal.obj => true

/-- JS coercion of a value used as an object key (users[username]). -/
def keyToString : JSVal → String
  | JSVal.undef => "undefined"
  | JSVal.null => "null"
  | JSVal.str s => s
  | JSVal.num n => toString n
  | JSVal.bool b => cond b "true" "false"
  | JSVal.obj => "[object Object]"

/-- The users.json record with the publicKeyPem field kept as the raw
JSON value the client submitted (the flat-file variant stores the body
field verbatim). -/
structure FUserJS where
  publicKeyPem : JSVal
  token : String
  createdAt : Nat
deriving Repr, DecidableEq

/-- The register validation test of both variants at the JS level
(server.js line 54, part_000 line 29): reject when either body field is
falsy. -/
def registerFieldsMissing (username publicKeyPem : JSVal) : Bool :=
  !truthy username || !truthy publicKeyPem

/-- The send validation test of both variants at the JS level
(server.js line 88, part_000 line 51): reject when any of the five body
fields is falsy. -/
def sendFieldsMissing (from_ to_ ciphertext encryptedKey iv : JSVal) : Bool :=
  !truthy from_ || !truthy to_ || !truthy ciphertext ||
    !truthy encryptedKey || !truthy iv

/-- POST /api/register of the flat-file variant over raw JSON body
values (part_000 lines 27-38): the truthiness check is the only
validation, and a passing value is stored (the username coerced to an
object key, the publicKeyPem verbatim). -/
def registerFJS (username publicKeyPem : JSVal) (freshTok : String)
    (now : Nat) (users : List (String × FUserJS)) :
    Resp × List (String × FUserJS) :=
  if registerFieldsMissing username publicKeyPem then
    (Resp.mk 400 (RBody.error "username and publicKeyPem required"), users)
  else
    (Resp.mk 200 (RBody.token freshTok),
     setUser users (keyToString username) (FUserJS.mk publicKeyPem freshTok now))

/-- An API request, carrying its body fields and x-api-key header. -/
inductive Req where
  | register (username publicKeyPem : String)
  | publicKey (username : String)
  | send (from_ to_ ciphertext encryptedKey iv : String) (apiKey : Option String)
  | fetch (username : String) (apiKey : Option String)
  | listUsers
deriving Repr, DecidableEq

/-- The view of a MongoDB User document as a users.json entry. -/
def toFUser (u : MUser) : String × FUser :=
  (u.username, FUser.mk u.publicKeyPem u.token u.createdAt)

/-- The message list is ordered by non-decreasing timestamp. -/
def sortedTs (l : List Msg) : Prop :=
  l.Pairwise (fun a b => a.timestamp ≤ b.timestamp)

/-- The users.json value corresponding to a MongoDB User document. -/
def toFU (x : MUser) : FUser :=
  FUser.mk x.publicKeyPem x.token x.createdAt

/-- ECMAScript array-index test: a string property key is an array index
when it is the canonical decimal form (no leading zero except the string
0 itself) of an integer n with 0 <= n < 4294967295.  Such keys are
enumerated before all other string keys, in ascending numeric order.
Returns the numeric value when the key is an array index. -/
def keyToIndex? (s : String) : Option Nat :=
  match s.data with
  | [] => none
  | c :: cs =>
      if (c :: cs).all (fun ch => ch.isDigit) then
        if c = '0' ∧ cs ≠ [] then none
        else
          let n := (c :: cs).foldl (fun acc ch => acc * 10 + (ch.toNat - 48)) 0
          if n < 4294967295 then some n else none
      else none

/-- Whether a string key is an ECMAScript array index. -/
def isArrayIndexKey (s : String) : Bool :=
  (keyToIndex? s).isSome

/-- Stable ascending insertion by numeric key value, used to order the
array-index block of ECMAScript key enumeration. -/
def insertIdx {α : Type} (p : String × α) :
    List (String × α) → List (String × α)
  | [] => [p]
  | q :: qs =>
      if (keyToIndex? q.1).getD 0 ≤ (keyToIndex? p.1).getD 0 then
        q :: insertIdx p qs
      else p :: q :: qs

/-- Sort an association list ascending by the numeric value of its
keys. -/
def sortIdx {α : Type} (l : List (String × α)) : List (String × α) :=
  l.foldl (fun acc p => insertIdx p acc) []

/-- ECMAScript own-key enumeration order (OrdinaryOwnPropertyKeys), the
order Object.keys and JSON.stringify use: array-index keys first in
ascending numeric order, then the remaining string keys in insertion
order.  writeJson persists users.json via JSON.stringify, so the users
object the next request re-reads is in this order. -/
def jsEnumOrder {α : Type} (l : List (String × α)) :
    List (String × α) :=
  sortIdx (l.filter (fun p => isArrayIndexKey p.1)) ++
    l.filter (fun p => !isArrayIndexKey p.1)

/-- Property names a plain JavaScript object inherits from
Object.prototype, plus the __proto__ accessor.  Reading one of these on
the parsed users object yields an inherited truthy function even when no
such user was registered, and assigning __proto__ does not create an own
key, so usernames of this shape make the flat-file variant diverge from
MongoDB. -/
def objectProtoNames : List String :=
  ["__proto__", "constructor", "hasOwnProperty", "isPrototypeOf",
   "propertyIsEnumerable", "toLocaleString", "toString", "valueOf",
   "__defineGetter__", "__defineSetter__", "__lookupGetter__",
   "__lookupSetter__"]

/-- A plain username: neither an array-index string (whose enumeration
position differs from insertion order) nor an Object.prototype property
name (whose property access is inherited).  On plain keys, JS property
lookup and assignment coincide with own-key association-list access. -/
def jsPlainKey (s : String) : Bool :=
  !isArrayIndexKey s && !objectProtoNames.contains s

/-- MongoDB store refined for the equivalence claim: a stored Message
document carries the ObjectId _id the driver generates when the document
is constructed, modelled as an id string paired with the payload
fields. -/
structure MStateX where
  users : List MUser
  messages : List (String × Msg)
deriving Repr, DecidableEq

/-- Response bodies refined for the equivalence claim, keeping the two
fetch shapes apart: MongoDB find().lean() documents include _id
(messagesWithId) while flat-file records do not (messages). -/
inductive RBodyX where
  | token (t : String)
  | publicKeyPem (pem : String)
  | ok
  | messagesWithId (ms : List (String × Msg))
  | messages (ms : List Msg)
  | users (us : List String)
  | error (msg : String)
deriving Repr, DecidableEq

/-- An HTTP response of the refined models. -/
structure RespX where
  status : Nat
  body : RBodyX
deriving Repr, DecidableEq

/-- User.findOne on the refined MongoDB store. -/
def findUserMX (username : String) (s : MStateX) : Option MUser :=
  s.users.find? (fun u => u.username = username)

/-- POST /api/register, MongoDB variant (src/server.js lines 51-70),
refined store. -/
def registerMX (username publicKeyPem freshTok : String) (now : Nat)
    (s : MStateX) : RespX × MStateX :=
  if strFalsy username || strFalsy publicKeyPem then
    (RespX.mk 400 (RBodyX.error "username and publicKeyPem required"), s)
  else
    match findUserMX username s with
    | some existing => (RespX.mk 200 (RBodyX.token existing.token), s)
    | none =>
        (RespX.mk 200 (RBodyX.token freshTok),
         MStateX.mk (s.users ++ [MUser.mk username publicKeyPem freshTok now])
           s.messages)

/-- GET /api/publicKey/:username, MongoDB variant (lines 73-82),
refined store. -/
def publicKeyMX (username : String) (s : MStateX) : RespX × MStateX :=
  match findUserMX username s with
  | none => (RespX.mk 404 (RBodyX.error "user not found"), s)
  | some u => (RespX.mk 200 (RBodyX.publicKeyPem u.publicKeyPem), s)

/-- POST /api/send, MongoDB variant (lines 85-104), refined store: the
saved document gets the driver-generated _id supplied as freshId. -/
def sendMX (from_ to_ ciphertext encryptedKey iv : String)
    (apiKey : Option String) (freshId : String) (now : Nat)
    (s : MStateX) : RespX × MStateX :=
  if strFalsy from_ || strFalsy to_ || strFalsy ciphertext ||
      strFalsy encryptedKey || strFalsy iv then
    (RespX.mk 400 (RBodyX.error "missing fields"), s)
  else
    match findUserMX from_ s with
    | none => (RespX.mk 400 (RBodyX.error "unknown sender"), s)
    | some user =>
        if authFails apiKey user.token then
          (RespX.mk 401 (RBodyX.error "invalid api key"), s)
        else
          (RespX.mk 200 RBodyX.ok,
           MStateX.mk s.users
             (s.messages
               ++ [(freshId, Msg.mk from_ to_ ciphertext encryptedKey iv now)]))

/-- Stable ordered insert on Message documents by ascending timestamp,
the document-level counterpart of insertTs. -/
def insertTsD (m : String × Msg) :
    List (String × Msg) → List (String × Msg)
  | [] => [m]
  | x :: xs =>
      if x.2.timestamp ≤ m.2.timestamp then x :: insertTsD m xs
      else m :: x :: xs

/-- Stable sort of Message documents by ascending timestamp, modelling
the MongoDB sort on the timestamp key for the refined store. -/
def sortTsD (l : List (String × Msg)) : List (String × Msg) :=
  l.foldl (fun acc m => insertTsD m acc) []

/-- GET /api/messages/:username, MongoDB variant (lines 107-122),
refined store: the response carries the raw found documents, _id
included. -/
def messagesMX (username : String) (apiKey : Option String)
    (s : MStateX) : RespX × MStateX :=
  match findUserMX username s with
  | none => (RespX.mk 404 (RBodyX.error "unknown user"), s)
  | some user =>
      if authFails apiKey user.token then
        (RespX.mk 401 (RBodyX.error "invalid api key"), s)
      else
        (RespX.mk 200
          (RBodyX.messagesWithId
            (sortTsD (s.messages.filter (fun m => m.2.to_ = username)))), s)

/-- GET /api/users, MongoDB variant (lines 125-133), refined store. -/
def usersMX (s : MStateX) : RespX × MStateX :=
  (RespX.mk 200 (RBodyX.users (s.users.map (fun u => u.username))), s)

/-- POST /api/register, flat-file variant (part_000 lines 27-38),
refined to account for persistence order: writeJson stringifies the
users object, so the stored file is in ECMAScript enumeration order of
the updated object. -/
def registerFX (username publicKeyPem freshTok : String) (now : Nat)
    (s : FState) : RespX × FState :=
  if strFalsy username || strFalsy publicKeyPem then
    (RespX.mk 400 (RBodyX.error "username and publicKeyPem required"), s)
  else
    (RespX.mk 200 (RBodyX.token freshTok),
     FState.mk
       (jsEnumOrder
         (setUser s.users username (FUser.mk publicKeyPem freshTok now)))
       s.messages)

/-- GET /api/publicKey/:username, flat-file variant (lines 41-46). -/
def publicKeyFX (username : String) (s : FState) : RespX × FState :=
  match findUserF username s with
  | none => (RespX.mk 404 (RBodyX.error "user not found"), s)
  | some u => (RespX.mk 200 (RBodyX.publicKeyPem u.publicKeyPem), s)

/-- POST /api/send, flat-file variant (lines 49-65); messages.json is an
array, which JSON round-trips in order. -/
def sendFX (from_ to_ ciphertext encryptedKey iv : String)
    (apiKey : Option String) (now : Nat) (s : FState) : RespX × FState :=
  if strFalsy from_ || strFalsy to_ || strFalsy ciphertext ||
      strFalsy encryptedKey || strFalsy iv then
    (RespX.mk 400 (RBodyX.error "missing fields"), s)
  else
    match findUserF from_ s with
    | none => (RespX.mk 400 (RBodyX.error "unknown sender"), s)
    | some user =>
        if authFails apiKey user.token then
          (RespX.mk 401 (RBodyX.error "invalid api key"), s)
        else
          (RespX.mk 200 RBodyX.ok,
           FState.mk s.users
             (s.messages ++ [Msg.mk from_ to_ ciphertext encryptedKey iv now]))

/-- GET /api/messages/:username, flat-file variant (lines 68-79). -/
def messagesFX (username : String) (apiKey : Option String)
    (s : FState) : RespX × FState :=
  match findUserF username s with
  | none => (RespX.mk 404 (RBodyX.error "unknown user"), s)
  | some user =>
      if authFails apiKey user.token then
        (RespX.mk 401 (RBodyX.error "invalid api key"), s)
      else
        (RespX.mk 200
          (RBodyX.messages (s.messages.filter (fun m => m.to_ = username))), s)

/-- GET /api/users, flat-file variant (lines 82-85): Object.keys of the
re-read users object, whose key order is the persisted enumeration
order. -/
def usersFX (s : FState) : RespX × FState :=
  (RespX.mk 200 (RBodyX.users (s.users.map (fun p => p.1))), s)

/-- The environment a single request consumes: the token and the
ObjectId the server would freshly generate during it, and the current
clock reading. -/
structure REnvX where
  freshTok : String
  freshId : String
  now : Nat
deriving Repr, DecidableEq

/-- Dispatch one request in the refined MongoDB variant. -/
def stepMX : Req → REnvX → MStateX → RespX × MStateX
  | Req.register u p, e, s => registerMX u p e.freshTok e.now s
  | Req.publicKey u, _, s => publicKeyMX u s
  | Req.send f t c k i a, e, s => sendMX f t c k i a e.freshId e.now s
  | Req.fetch u a, _, s => messagesMX u a s
  | Req.listUsers, _, s => usersMX s

/-- Dispatch one request in the refined flat-file variant. -/
def stepFX : Req → REnvX → FState → RespX × FState
  | Req.register u p, e, s => registerFX u p e.freshTok e.now s
  | Req.publicKey u, _, s => publicKeyFX u s
  | Req.send f t c k i a, e, s => sendFX f t c k i a e.now s
  | Req.fetch u a, _, s => messagesFX u a s
  | Req.listUsers, _, s => usersFX s

/-- Run a request sequence in the refined MongoDB variant. -/
def runMX : List (Req × REnvX) → MStateX → List RespX × MStateX
  | [], s => ([], s)
  | (r, e) :: rest, s =>
      let out := stepMX r e s
      let next := runMX rest out.2
      (out.1 :: next.1, next.2)

/-- Run a request sequence in the refined flat-file variant. -/
def runFX : List (Req × REnvX) → FState → List RespX × FState
  | [], s => ([], s)
  | (r, e) :: rest, s =>
      let out := stepFX r e s
      let next := runFX rest out.2
      (out.1 :: next.1, next.2)

/-- Store correspondence between the refined variants: the users.json
object lists exactly the User documents in collection order, and the
message array holds exactly the Message documents stripped of _id, in
order. -/
def corrX (ms : MStateX) (fs : FState) : Prop :=
  fs.users = ms.users.map toFUser ∧
    fs.messages = ms.messages.map (fun p => p.2)

/-- The document list is ordered by non-decreasing timestamp. -/
def sortedTsD (l : List (String × Msg)) : Prop :=
  l.Pairwise (fun a b => a.2.timestamp ≤ b.2.timestamp)

/-- Usernames of the register requests of a run, in order. -/
def regNamesX : List (Req × REnvX) → List String
  | [] => []
  | (Req.register u _, _) :: rest => u :: regNamesX rest
  | _ :: rest => regNamesX rest

/-- Whether every username a request looks up or creates is a plain key
(the recipient of a send is only stored and compared, never used as an
object key, so it is unconstrained). -/
def reqNamesPlain : Req → Bool
  | Req.register u _ => jsPlainKey u
  | Req.publicKey u => jsPlainKey u
  | Req.send f _ _ _ _ _ => jsPlainKey f
  | Req.fetch u _ => jsPlainKey u
  | Req.listUsers => true

/-- Erase the driver-generated _id from a fetched document list, leaving
every other body untouched. -/
def scrubBody : RBodyX → RBodyX
  | RBodyX.messagesWithId ms => RBodyX.messages (ms.map (fun p => p.2))
  | b => b

/-- Erase the _id fields from a response. -/
def scrubResp (r : RespX) : RespX :=
  RespX.mk r.status (scrubBody r.body)

theorem mem_insertTs (m a : Msg) (l : List Msg) :
    a ∈ insertTs m l ↔ a = m ∨ a ∈ l := by
  induction l with
  | nil => simp [insertTs]
  | cons x xs ih =>
      by_cases h : x.timestamp ≤ m.timestamp
      · simp [insertTs, h, ih]
        tauto
      · simp [insertTs, h]

theorem insertTs_perm (m : Msg) (l : List Msg) :
    List.Perm (insertTs m l) (m :: l) := by
  induction l with
  | nil => simp [insertTs]
  | cons x xs ih =>
      by_cases h : x.timestamp ≤ m.timestamp
      · simp only [insertTs, if_pos h]
        exact List.Perm.trans (List.Perm.cons x ih) (List.Perm.swap m x xs)
      · simp [insertTs, h]

theorem insertTs_sorted (m : Msg) (l : List Msg) (h : sortedTs l) :
    sortedTs (insertTs m l) := by
  induction l with
  | nil => simp [insertTs, sortedTs]
  | cons x xs ih =>
      rcases (List.pairwise_cons.mp h) with ⟨hx, hxs⟩
      by_cases hle : x.timestamp ≤ m.timestamp
      · simp only [insertTs, if_pos hle]
        refine List.pairwise_cons.mpr ⟨?_, ih hxs⟩
        intro b hb
        rcases (mem_insertTs m b xs).mp hb with rfl | hmem
        · exact hle
        · exact hx b hmem
      · simp only [insertTs, if_neg hle]
        refine List.pairwise_cons.mpr ⟨?_, h⟩
        intro b hb
        rcases List.mem_cons.mp hb with rfl | hmem
        · exact Nat.le_of_not_le hle
        · exact Nat.le_trans (Nat.le_of_not_le hle) (hx b hmem)

theorem insertTs_append_of_le (m : Msg) (l : List Msg)
    (h : ∀ x ∈ l, x.timestamp ≤ m.timestamp) :
    insertTs m l = l ++ [m] := by
  induction l with
  | nil => simp [insertTs]
  | cons x xs ih =>
      have hx : x.timestamp ≤ m.timestamp := h x (List.mem_cons_self x xs)
      simp only [insertTs, if_pos hx, List.cons_append]
      rw [ih (fun y hy => h y (List.mem_cons_of_mem x hy))]

theorem foldlInsert_perm (l : List Msg) :
    ∀ acc : List Msg,
      List.Perm (l.foldl (fun a m => insertTs m a) acc) (acc ++ l) := by
  induction l with
  | nil => intro acc; simp
  | cons x xs ih =>
      intro acc
      simp only [List.foldl_cons]
      refine List.Perm.trans (ih (insertTs x acc)) ?_
      have h1 : List.Perm (insertTs x acc ++ xs) ((x :: acc) ++ xs) :=
        List.Perm.append_right xs (insertTs_perm x acc)
      refine List.Perm.trans h1 ?_
      simpa using List.perm_middle.symm

theorem sortTs_perm (l : List Msg) : List.Perm (sortTs l) l := by
  simpa using foldlInsert_perm l []

theorem mem_sortTs (a : Msg) (l : List Msg) : a ∈ sortTs l ↔ a ∈ l :=
  (sortTs_perm l).mem_iff

theorem foldlInsert_sorted (l : List Msg) :
    ∀ acc : List Msg, sortedTs acc →
      sortedTs (l.foldl (fun a m => insertTs m a) acc) := by
  induction l with
  | nil => intro acc h; simpa using h
  | cons x xs ih =>
      intro acc h
      simp only [List.foldl_cons]
      exact ih (insertTs x acc) (insertTs_sorted x acc h)

theorem sortTs_sorted (l : List Msg) : sortedTs (sortTs l) :=
  foldlInsert_sorted l [] (List.Pairwise.nil)

theorem foldlInsert_of_sorted (l : List Msg) :
    ∀ acc : List Msg, sortedTs (acc ++ l) →
      l.foldl (fun a m => insertTs m a) acc = acc ++ l := by
  induction l with
  | nil => intro acc _; simp
  | cons x xs ih =>
      intro acc h
      have hax : ∀ y ∈ acc, y.timestamp ≤ x.timestamp := by
        intro y hy
        have := (List.pairwise_append.mp h).2.2
        exact this y hy x (List.mem_cons_self x xs)
      simp only [List.foldl_cons]
      rw [insertTs_append_of_le x acc hax]
      have h2 : sortedTs ((acc ++ [x]) ++ xs) := by
        simpa using h
      rw [ih (acc ++ [x]) h2]
      simp

theorem sortTs_of_sorted (l : List Msg) (h : sortedTs l) : sortTs l = l := by
  have := foldlInsert_of_sorted l [] (by simpa using h)
  simpa [sortTs] using this

theorem sublist_insertTs (m : Msg) (l : List Msg) : l.Sublist (insertTs m l) := by
  induction l with
  | nil => simp [insertTs]
  | cons x xs ih =>
      by_cases h : x.timestamp ≤ m.timestamp
      · simp only [insertTs, if_pos h]
        exact List.Sublist.cons₂ x ih
      · simp only [insertTs, if_neg h]
        exact List.Sublist.cons m (List.Sublist.refl (x :: xs))

theorem sublist_foldlInsert (l : List Msg) :
    ∀ acc s : List Msg, s.Sublist acc →
      s.Sublist (l.foldl (fun a m => insertTs m a) acc) := by
  induction l with
  | nil => intro acc s h; simpa using h
  | cons x xs ih =>
      intro acc s h
      simp only [List.foldl_cons]
      exact ih (insertTs x acc) s (List.Sublist.trans h (sublist_insertTs x acc))

theorem mem_foldlInsert (l : List Msg) (acc : List Msg) (a : Msg)
    (h : a ∈ acc) : a ∈ l.foldl (fun a m => insertTs m a) acc :=
  List.singleton_sublist.mp
    (sublist_foldlInsert l acc [a] (List.singleton_sublist.mpr h))

theorem pair_sublist_insertTs (m a : Msg) (acc : List Msg)
    (hs : sortedTs acc) (ha : a ∈ acc) (hle : a.timestamp ≤ m.timestamp) :
    List.Sublist [a, m] (insertTs m acc) := by
  induction acc with
  | nil => cases ha
  | cons x xs ih =>
      rcases (List.pairwise_cons.mp hs) with ⟨hx, hxs⟩
      by_cases hxm : x.timestamp ≤ m.timestamp
      · simp only [insertTs, if_pos hxm]
        rcases List.mem_cons.mp ha with rfl | hmem
        · exact List.Sublist.cons₂ a
            (List.singleton_sublist.mpr ((mem_insertTs m m xs).mpr (Or.inl rfl)))
        · exact List.Sublist.cons x (ih hxs hmem)
      · exfalso
        have hmx : m.timestamp < x.timestamp := Nat.lt_of_not_le hxm
        rcases List.mem_cons.mp ha with rfl | hmem
        · exact Nat.lt_irrefl _ (Nat.lt_of_le_of_lt hle hmx)
        · exact Nat.lt_irrefl _
            (Nat.lt_of_le_of_lt hle (Nat.lt_of_lt_of_le hmx (hx a hmem)))

theorem sortTs_stable (m1 m2 : Msg) (l1 l2 l3 : List Msg)
    (hle : m1.timestamp ≤ m2.timestamp) :
    List.Sublist [m1, m2] (sortTs (l1 ++ m1 :: l2 ++ m2 :: l3)) := by
  unfold sortTs
  rw [List.foldl_append]
  rw [List.foldl_cons]
  rw [List.foldl_append]
  rw [List.foldl_cons]
  set acc0 := l1.foldl (fun a m => insertTs m a) [] with hacc0
  set acc1 := insertTs m1 acc0 with hacc1
  set acc2 := l2.foldl (fun a m => insertTs m a) acc1 with hacc2
  have hs0 : sortedTs acc0 := foldlInsert_sorted l1 [] List.Pairwise.nil
  have hs1 : sortedTs acc1 := insertTs_sorted m1 acc0 hs0
  have hs2 : sortedTs acc2 := foldlInsert_sorted l2 acc1 hs1
  have hm1 : m1 ∈ acc2 :=
    mem_foldlInsert l2 acc1 m1 ((mem_insertTs m1 m1 acc0).mpr (Or.inl rfl))
  exact sublist_foldlInsert l3 (insertTs m2 acc2) [m1, m2]
    (pair_sublist_insertTs m2 m1 acc2 hs2 hm1 hle)

theorem toFUser_eq (x : MUser) : toFUser x = (x.username, toFU x) := rfl

theorem setUser_fresh {α : Type} (users : List (String × α)) (k : String)
    (v : α) (h : ∀ p ∈ users, p.1 ≠ k) :
    setUser users k v = users ++ [(k, v)] := by
  induction users with
  | nil => rfl
  | cons q rest ih =>
      obtain ⟨qk, qv⟩ := q
      have hq : qk ≠ k := h (qk, qv) (List.mem_cons_self _ _)
      simp only [setUser, if_neg hq, List.cons_append]
      rw [ih (fun p hp => h p (List.mem_cons_of_mem _ hp))]

theorem findUserM_none (n : String) (s : MState)
    (h : ∀ u ∈ s.users, u.username ≠ n) : findUserM n s = none := by
  simp only [findUserM, List.find?_eq_none]
  intro x hx
  simp [h x hx]

theorem authFails_iff (key : Option String) (T : String) (hT : T ≠ "") :
    authFails key T = true ↔ key ≠ some T := by
  cases key with
  | none => simp [authFails]
  | some k =>
      by_cases hk : k = T
      · subst hk
        simp [authFails, hT]
      · simp [authFails, hk]

theorem authFails_self (T : String) (hT : T ≠ "") :
    authFails (some T) T = false := by
  simp [authFails, hT]

/-- C3: auth gate.  In both variants, once the body fields are present
and the target user exists with stored token T (nonempty, as every
server-issued token is), a send or fetch with an x-api-key header
different from some T — including an absent header and the empty
string — returns 401 and leaves the store unchanged, and a header equal
to T passes the auth check (status 200). -/
theorem c3_auth_gate :
    (∀ (s : MState) (f t c ek iv : String) (x : MUser) (key : Option String)
        (now : Nat),
      strFalsy f = false → strFalsy t = false → strFalsy c = false →
      strFalsy ek = false → strFalsy iv = false →
      findUserM f s = some x → x.token ≠ "" →
      (key ≠ some x.token →
        sendM f t c ek iv key now s = (Resp.mk 401 (RBody.error "invalid api key"), s)) ∧
      (key = some x.token → (sendM f t c ek iv key now s).1.status = 200)) ∧
    (∀ (s : MState) (u : String) (x : MUser) (key : Option String),
      findUserM u s = some x → x.token ≠ "" →
      (key ≠ some x.token →
        messagesM u key s = (Resp.mk 401 (RBody.error "invalid api key"), s)) ∧
      (key = some x.token → (messagesM u key s).1.status = 200)) ∧
    (∀ (s : FState) (f t c ek iv : String) (x : FUser) (key : Option String)
        (now : Nat),
      strFalsy f = false → strFalsy t = false → strFalsy c = false →
      strFalsy ek = false → strFalsy iv = false →
      findUserF f s = some x → x.token ≠ "" →
      (key ≠ some x.token →
        sendF f t c ek iv key now s = (Resp.mk 401 (RBody.error "invalid api key"), s)) ∧
      (key = some x.token → (sendF f t c ek iv key now s).1.status = 200)) ∧
    (∀ (s : FState) (u : String) (x : FUser) (key : Option String),
      findUserF u s = some x → x.token ≠ "" →
      (key ≠ some x.token →
        messagesF u key s = (Resp.mk 401 (RBody.error "invalid api key"), s)) ∧
      (key = some x.token → (messagesF u key s).1.status = 200)) := by
  refine ⟨?_, ?_, ?_, ?_⟩
  · intro s f t c ek iv x key now hf ht hc hek hiv hfind hT
    have hv : (strFalsy f || strFalsy t || strFalsy c || strFalsy ek
        || strFalsy iv) = false := by
      rw [hf, ht, hc, hek, hiv]; rfl
    constructor
    · intro hk
      have hbool : authFails key x.token = true :=
        (authFails_iff key x.token hT).mpr hk
      simp [sendM, hv, hfind, hbool]
    · intro hk
      subst hk
      simp [sendM, hv, hfind, authFails_self x.token hT]
  · intro s u x key hfind hT
    constructor
    · intro hk
      have hbool : authFails key x.token = true :=
        (authFails_iff key x.token hT).mpr hk
      simp [messagesM, hfind, hbool]
    · intro hk
      subst hk
      simp [messagesM, hfind, authFails_self x.token hT]
  · intro s f t c ek iv x key now hf ht hc hek hiv hfind hT
    have hv : (strFalsy f || strFalsy t || strFalsy c || strFalsy ek
        || strFalsy iv) = false := by
      rw [hf, ht, hc, hek, hiv]; rfl
    constructor
    · intro hk
      have hbool : authFails key x.token = true :=
        (authFails_iff key x.token hT).mpr hk
      simp [sendF, hv, hfind, hbool]
    · intro hk
      subst hk
      simp [sendF, hv, hfind, authFails_self x.token hT]
  · intro s u x key hfind hT
    constructor
    · intro hk
      have hbool : authFails key x.token = true :=
        (authFails_iff key x.token hT).mpr hk
      simp [messagesF, hfind, hbool]
    · intro hk
      subst hk
      simp [messagesF, hfind, authFails_self x.token hT]

/-- C3 witness: on a store holding alice with token tok, a send with a
wrong key and a fetch with an absent key give 401 without mutation, and
the matching key passes the auth check in both variants. -/
theorem c3_auth_gate_witness :
    sendM "alice" "bob" "c1" "k1" "iv1" (some "wrong") 7
        (MState.mk [MUser.mk "alice" "PEM" "tok" 0] [])
      = (Resp.mk 401 (RBody.error "invalid api key"),
         MState.mk [MUser.mk "alice" "PEM" "tok" 0] []) ∧
    (messagesM "alice" (some "tok")
        (MState.mk [MUser.mk "alice" "PEM" "tok" 0] [])).1.status = 200 ∧
    messagesF "alice" none
        (FState.mk [("alice", FUser.mk "PEM" "tok" 0)] [])
      = (Resp.mk 401 (RBody.error "invalid api key"),
         FState.mk [("alice", FUser.mk "PEM" "tok" 0)] []) ∧
    (sendF "alice" "bob" "c1" "k1" "iv1" (some "tok") 7
        (FState.mk [("alice", FUser.mk "PEM" "tok" 0)] [])).1.status = 200 := by
  refine ⟨?_, ?_, ?_, ?_⟩
  · exact (c3_auth_gate.1 (MState.mk [MUser.mk "alice" "PEM" "tok" 0] [])
      "alice" "bob" "c1" "k1" "iv1" (MUser.mk "alice" "PEM" "tok" 0)
      (some "wrong") 7 rfl rfl rfl rfl rfl (by decide) (by decide)).1 (by decide)
  · exact (c3_auth_gate.2.1 (MState.mk [MUser.mk "alice" "PEM" "tok" 0] [])
      "alice" (MUser.mk "alice" "PEM" "tok" 0) (some "tok")
      (by decide) (by decide)).2 rfl
  · exact (c3_auth_gate.2.2.2 (FState.mk [("alice", FUser.mk "PEM" "tok" 0)] [])
      "alice" (FUser.mk "PEM" "tok" 0) none (by decide) (by decide)).1 (by decide)
  · exact (c3_auth_gate.2.2.1 (FState.mk [("alice", FUser.mk "PEM" "tok" 0)] [])
      "alice" "bob" "c1" "k1" "iv1" (FUser.mk "PEM" "tok" 0)
      (some "tok") 7 rfl rfl rfl rfl rfl (by decide) (by decide)).2 rfl

/-- C4: unknown-sender rejection.  In both variants, a send whose five
body fields are present but whose from names no existing user returns
400 with the unknown-sender error and leaves the store unchanged, for
every credential value — the sender-existence check runs before the
credential check, so the result does not depend on the key. -/
theorem c4_unknown_sender :
    (∀ (s : MState) (f t c ek iv : String) (key : Option String) (now : Nat),
      strFalsy f = false → strFalsy t = false → strFalsy c = false →
      strFalsy ek = false → strFalsy iv = false →
      findUserM f s = none →
      sendM f t c ek iv key now s
        = (Resp.mk 400 (RBody.error "unknown sender"), s)) ∧
    (∀ (s : FState) (f t c ek iv : String) (key : Option String) (now : Nat),
      strFalsy f = false → strFalsy t = false → strFalsy c = false →
      strFalsy ek = false → strFalsy iv = false →
      findUserF f s = none →
      sendF f t c ek iv key now s
        = (Resp.mk 400 (RBody.error "unknown sender"), s)) := by
  constructor
  · intro s f t c ek iv key now hf ht hc hek hiv hfind
    have hv : (strFalsy f || strFalsy t || strFalsy c || strFalsy ek
        || strFalsy iv) = false := by
      rw [hf, ht, hc, hek, hiv]; rfl
    simp [sendM, hv, hfind]
  · intro s f t c ek iv key now hf ht hc hek hiv hfind
    have hv : (strFalsy f || strFalsy t || strFalsy c || strFalsy ek
        || strFalsy iv) = false := by
      rw [hf, ht, hc, hek, hiv]; rfl
    simp [sendF, hv, hfind]

/-- C4 witness: a send from the unregistered user mallory is rejected
with 400 in both variants even with a credential supplied, and the
stores are untouched. -/
theorem c4_unknown_sender_witness :
    sendM "mallory" "bob" "c1" "k1" "iv1" (some "anything") 3
        (MState.mk [MUser.mk "alice" "PEM" "tok" 0] [])
      = (Resp.mk 400 (RBody.error "unknown sender"),
         MState.mk [MUser.mk "alice" "PEM" "tok" 0] []) ∧
    sendF "mallory" "bob" "c1" "k1" "iv1" (some "anything") 3
        (FState.mk [("alice", FUser.mk "PEM" "tok" 0)] [])
      = (Resp.mk 400 (RBody.error "unknown sender"),
         FState.mk [("alice", FUser.mk "PEM" "tok" 0)] []) := by
  constructor
  · exact c4_unknown_sender.1 (MState.mk [MUser.mk "alice" "PEM" "tok" 0] [])
      "mallory" "bob" "c1" "k1" "iv1" (some "anything") 3
      rfl rfl rfl rfl rfl (by decide)
  · exact c4_unknown_sender.2 (FState.mk [("alice", FUser.mk "PEM" "tok" 0)] [])
      "mallory" "bob" "c1" "k1" "iv1" (some "anything") 3
      rfl rfl rfl rfl rfl (by decide)

/-- C9: the recipient is never validated.  In both variants, a send with
all five fields present, an existing sender and a passing credential
succeeds with ok true and appends the message, even when the recipient
names a username with no stored record. -/
theorem c9_recipient_not_validated :
    (∀ (s : MState) (f t c ek iv : String) (x : MUser) (key : Option String)
        (now : Nat),
      strFalsy f = false → strFalsy t = false → strFalsy c = false →
      strFalsy ek = false → strFalsy iv = false →
      findUserM f s = some x → authFails key x.token = false →
      (∀ y ∈ s.users, y.username ≠ t) →
      sendM f t c ek iv key now s
        = (Resp.mk 200 RBody.ok,
           MState.mk s.users (s.messages ++ [Msg.mk f t c ek iv now]))) ∧
    (∀ (s : FState) (f t c ek iv : String) (x : FUser) (key : Option String)
        (now : Nat),
      strFalsy f = false → strFalsy t = false → strFalsy c = false →
      strFalsy ek = false → strFalsy iv = false →
      findUserF f s = some x → authFails key x.token = false →
      (∀ y ∈ s.users, y.1 ≠ t) →
      sendF f t c ek iv key now s
        = (Resp.mk 200 RBody.ok,
           FState.mk s.users (s.messages ++ [Msg.mk f t c ek iv now]))) := by
  constructor
  · intro s f t c ek iv x key now hf ht hc hek hiv hfind hauth _
    have hv : (strFalsy f || strFalsy t || strFalsy c || strFalsy ek
        || strFalsy iv) = false := by
      rw [hf, ht, hc, hek, hiv]; rfl
    simp [sendM, hv, hfind, hauth]
  · intro s f t c ek iv x key now hf ht hc hek hiv hfind hauth _
    have hv : (strFalsy f || strFalsy t || strFalsy c || strFalsy ek
        || strFalsy iv) = false := by
      rw [hf, ht, hc, hek, hiv]; rfl
    simp [sendF, hv, hfind, hauth]

/-- C9 witness: alice sends to the unregistered name ghost with her own
token and the message is stored in both variants. -/
theorem c9_recipient_not_validated_witness :
    sendM "alice" "ghost" "c1" "k1" "iv1" (some "tok") 4
        (MState.mk [MUser.mk "alice" "PEM" "tok" 0] [])
      = (Resp.mk 200 RBody.ok,
         MState.mk [MUser.mk "alice" "PEM" "tok" 0]
           [Msg.mk "alice" "ghost" "c1" "k1" "iv1" 4]) ∧
    sendF "alice" "ghost" "c1" "k1" "iv1" (some "tok") 4
        (FState.mk [("alice", FUser.mk "PEM" "tok" 0)] [])
      = (Resp.mk 200 RBody.ok,
         FState.mk [("alice", FUser.mk "PEM" "tok" 0)]
           [Msg.mk "alice" "ghost" "c1" "k1" "iv1" 4]) := by
  constructor
  · exact c9_recipient_not_validated.1
      (MState.mk [MUser.mk "alice" "PEM" "tok" 0] [])
      "alice" "ghost" "c1" "k1" "iv1" (MUser.mk "alice" "PEM" "tok" 0)
      (some "tok") 4 rfl rfl rfl rfl rfl (by decide) (by decide) (by decide)
  · exact c9_recipient_not_validated.2
      (FState.mk [("alice", FUser.mk "PEM" "tok" 0)] [])
      "alice" "ghost" "c1" "k1" "iv1" (FUser.mk "PEM" "tok" 0)
      (some "tok") 4 rfl rfl rfl rfl rfl (by decide) (by decide) (by decide)

/-- C5: recipient isolation and completeness.  In both variants, a
successful fetch for user u returns a list holding only messages whose
recipient field is u, holding every stored message addressed to u, and
forming a permutation of the stored messages addressed to u (full
history, multiplicities preserved, nothing deleted). -/
theorem c5_recipient_isolation :
    (∀ (s : MState) (u : String) (x : MUser) (key : Option String),
      findUserM u s = some x → authFails key x.token = false →
      ∃ out, (messagesM u key s).1 = Resp.mk 200 (RBody.messages out) ∧
        (∀ m ∈ out, m.to_ = u) ∧
        (∀ m ∈ s.messages, m.to_ = u → m ∈ out) ∧
        out.Perm (s.messages.filter (fun m => m.to_ = u))) ∧
    (∀ (s : FState) (u : String) (x : FUser) (key : Option String),
      findUserF u s = some x → authFails key x.token = false →
      ∃ out, (messagesF u key s).1 = Resp.mk 200 (RBody.messages out) ∧
        (∀ m ∈ out, m.to_ = u) ∧
        (∀ m ∈ s.messages, m.to_ = u → m ∈ out) ∧
        out.Perm (s.messages.filter (fun m => m.to_ = u))) := by
  constructor
  · intro s u x key hfind hauth
    refine ⟨sortTs (s.messages.filter (fun m => m.to_ = u)), ?_, ?_, ?_, ?_⟩
    · simp [messagesM, hfind, hauth]
    · intro m hm
      have hmf : m ∈ s.messages.filter (fun m => m.to_ = u) :=
        (mem_sortTs m _).mp hm
      exact of_decide_eq_true (List.mem_filter.mp hmf).2
    · intro m hm hto
      exact (mem_sortTs m _).mpr
        (List.mem_filter.mpr ⟨hm, decide_eq_true hto⟩)
    · exact sortTs_perm _
  · intro s u x key hfind hauth
    refine ⟨s.messages.filter (fun m => m.to_ = u), ?_, ?_, ?_, ?_⟩
    · simp [messagesF, hfind, hauth]
    · intro m hm
      exact of_decide_eq_true (List.mem_filter.mp hm).2
    · intro m hm hto
      exact List.mem_filter.mpr ⟨hm, decide_eq_true hto⟩
    · exact List.Perm.refl _

/-- C5 witness: bob's fetch on a store with one message to bob and one
to carol returns exactly the message addressed to bob, in both
variants. -/
theorem c5_recipient_isolation_witness :
    (∃ out, (messagesM "bob" (some "tb")
        (MState.mk [MUser.mk "bob" "PB" "tb" 0]
          [Msg.mk "alice" "bob" "c1" "k1" "i1" 1,
           Msg.mk "alice" "carol" "c2" "k2" "i2" 2])).1
        = Resp.mk 200 (RBody.messages out) ∧
      (∀ m ∈ out, m.to_ = "bob") ∧
      (∀ m ∈ [Msg.mk "alice" "bob" "c1" "k1" "i1" 1,
              Msg.mk "alice" "carol" "c2" "k2" "i2" 2],
        m.to_ = "bob" → m ∈ out) ∧
      out.Perm ([Msg.mk "alice" "bob" "c1" "k1" "i1" 1,
                 Msg.mk "alice" "carol" "c2" "k2" "i2" 2].filter
                   (fun m => m.to_ = "bob"))) ∧
    (∃ out, (messagesF "bob" (some "tb")
        (FState.mk [("bob", FUser.mk "PB" "tb" 0)]
          [Msg.mk "alice" "bob" "c1" "k1" "i1" 1,
           Msg.mk "alice" "carol" "c2" "k2" "i2" 2])).1
        = Resp.mk 200 (RBody.messages out) ∧
      (∀ m ∈ out, m.to_ = "bob") ∧
      (∀ m ∈ [Msg.mk "alice" "bob" "c1" "k1" "i1" 1,
              Msg.mk "alice" "carol" "c2" "k2" "i2" 2],
        m.to_ = "bob" → m ∈ out) ∧
      out.Perm ([Msg.mk "alice" "bob" "c1" "k1" "i1" 1,
                 Msg.mk "alice" "carol" "c2" "k2" "i2" 2].filter
                   (fun m => m.to_ = "bob"))) := by
  constructor
  · exact c5_recipient_isolation.1
      (MState.mk [MUser.mk "bob" "PB" "tb" 0]
        [Msg.mk "alice" "bob" "c1" "k1" "i1" 1,
         Msg.mk "alice" "carol" "c2" "k2" "i2" 2])
      "bob" (MUser.mk "bob" "PB" "tb" 0) (some "tb") (by decide) (by decide)
  · exact c5_recipient_isolation.2
      (FState.mk [("bob", FUser.mk "PB" "tb" 0)]
        [Msg.mk "alice" "bob" "c1" "k1" "i1" 1,
         Msg.mk "alice" "carol" "c2" "k2" "i2" 2])
      "bob" (FUser.mk "PB" "tb" 0) (some "tb") (by decide) (by decide)

/-- C6: ordering.  With the wall clock non-decreasing across requests
(so a message sent earlier carries a timestamp at most that of a later
one), a successful fetch returns its list ordered by ascending
timestamp, and any two stored messages to the recipient appear in their
send order: in the MongoDB variant the stable timestamp sort keeps
insertion order on equal timestamps, and in the flat-file variant the
stored order (assumed timestamp-sorted, as appends use the
non-decreasing clock) is returned filtered, preserving order. -/
theorem c6_ordering :
    (∀ (s : MState) (u : String) (x : MUser) (key : Option String)
        (m1 m2 : Msg) (l1 l2 l3 : List Msg),
      findUserM u s = some x → authFails key x.token = false →
      s.messages = l1 ++ m1 :: l2 ++ m2 :: l3 →
      m1.to_ = u → m2.to_ = u → m1.timestamp ≤ m2.timestamp →
      ∃ out, (messagesM u key s).1 = Resp.mk 200 (RBody.messages out) ∧
        sortedTs out ∧ List.Sublist [m1, m2] out) ∧
    (∀ (s : FState) (u : String) (x : FUser) (key : Option String)
        (m1 m2 : Msg) (l1 l2 l3 : List Msg),
      findUserF u s = some x → authFails key x.token = false →
      sortedTs s.messages →
      s.messages = l1 ++ m1 :: l2 ++ m2 :: l3 →
      m1.to_ = u → m2.to_ = u →
      ∃ out, (messagesF u key s).1 = Resp.mk 200 (RBody.messages out) ∧
        sortedTs out ∧ List.Sublist [m1, m2] out) := by
  constructor
  · intro s u x key m1 m2 l1 l2 l3 hfind hauth hdec hto1 hto2 hle
    refine ⟨sortTs (s.messages.filter (fun m => m.to_ = u)), ?_, ?_, ?_⟩
    · simp [messagesM, hfind, hauth]
    · exact sortTs_sorted _
    · have hfil : s.messages.filter (fun m => m.to_ = u)
          = (l1.filter (fun m => m.to_ = u) ++
              (m1 :: l2.filter (fun m => m.to_ = u))) ++
            (m2 :: l3.filter (fun m => m.to_ = u)) := by
        rw [hdec]
        simp [List.filter_append, List.filter_cons, hto1, hto2]
      rw [hfil]
      exact sortTs_stable m1 m2 (l1.filter (fun m => m.to_ = u))
        (l2.filter (fun m => m.to_ = u)) (l3.filter (fun m => m.to_ = u)) hle
  · intro s u x key m1 m2 l1 l2 l3 hfind hauth hsort hdec hto1 hto2
    refine ⟨s.messages.filter (fun m => m.to_ = u), ?_, ?_, ?_⟩
    · simp [messagesF, hfind, hauth]
    · exact List.Pairwise.sublist (List.filter_sublist _) hsort
    · have hsub : List.Sublist [m1, m2] s.messages := by
        rw [hdec]
        have h1 : List.Sublist [m1] (m1 :: l2) :=
          (List.nil_sublist l2).cons₂ m1
        have h1' : List.Sublist [m1] (l1 ++ (m1 :: l2)) :=
          h1.trans (List.sublist_append_right l1 _)
        have h2 : List.Sublist [m2] (m2 :: l3) :=
          (List.nil_sublist l3).cons₂ m2
        exact h1'.append h2
      have hf := hsub.filter (fun m => m.to_ = u)
      have hpair : [m1, m2].filter (fun m => m.to_ = u) = [m1, m2] := by
        simp [List.filter_cons, hto1, hto2]
      rw [hpair] at hf
      exact hf

/-- C6 witness: two messages to bob with equal timestamps come back in
send order in the MongoDB variant, and in insertion order from a sorted
flat-file store. -/
theorem c6_ordering_witness :
    (∃ out, (messagesM "bob" (some "tb")
        (MState.mk [MUser.mk "bob" "PB" "tb" 0]
          [Msg.mk "alice" "bob" "c1" "k1" "i1" 5,
           Msg.mk "carol" "bob" "c2" "k2" "i2" 5])).1
        = Resp.mk 200 (RBody.messages out) ∧
      sortedTs out ∧
      List.Sublist [Msg.mk "alice" "bob" "c1" "k1" "i1" 5,
                    Msg.mk "carol" "bob" "c2" "k2" "i2" 5] out) ∧
    (∃ out, (messagesF "bob" (some "tb")
        (FState.mk [("bob", FUser.mk "PB" "tb" 0)]
          [Msg.mk "alice" "bob" "c1" "k1" "i1" 5,
           Msg.mk "carol" "bob" "c2" "k2" "i2" 5])).1
        = Resp.mk 200 (RBody.messages out) ∧
      sortedTs out ∧
      List.Sublist [Msg.mk "alice" "bob" "c1" "k1" "i1" 5,
                    Msg.mk "carol" "bob" "c2" "k2" "i2" 5] out) := by
  constructor
  · exact c6_ordering.1
      (MState.mk [MUser.mk "bob" "PB" "tb" 0]
        [Msg.mk "alice" "bob" "c1" "k1" "i1" 5,
         Msg.mk "carol" "bob" "c2" "k2" "i2" 5])
      "bob" (MUser.mk "bob" "PB" "tb" 0) (some "tb")
      (Msg.mk "alice" "bob" "c1" "k1" "i1" 5)
      (Msg.mk "carol" "bob" "c2" "k2" "i2" 5)
      [] [] [] (by decide) (by decide) rfl rfl rfl (by decide)
  · exact c6_ordering.2
      (FState.mk [("bob", FUser.mk "PB" "tb" 0)]
        [Msg.mk "alice" "bob" "c1" "k1" "i1" 5,
         Msg.mk "carol" "bob" "c2" "k2" "i2" 5])
      "bob" (FUser.mk "PB" "tb" 0) (some "tb")
      (Msg.mk "alice" "bob" "c1" "k1" "i1" 5)
      (Msg.mk "carol" "bob" "c2" "k2" "i2" 5)
      [] [] [] (by decide) (by decide) (by simp [sortedTs]) rfl rfl rfl

/-- C7: opaque payload round-trip.  In both variants, after a successful
send of (from, to, ciphertext, encryptedKey, iv), a successful fetch by
the recipient returns a list containing a message whose five fields are
exactly the submitted strings together with the server-assigned
timestamp of the send. -/
theorem c7_roundtrip :
    (∀ (s : MState) (f t c ek iv : String) (x y : MUser)
        (skey fkey : Option String) (now : Nat),
      strFalsy f = false → strFalsy t = false → strFalsy c = false →
      strFalsy ek = false → strFalsy iv = false →
      findUserM f s = some x → authFails skey x.token = false →
      findUserM t s = some y → authFails fkey y.token = false →
      (sendM f t c ek iv skey now s).1 = Resp.mk 200 RBody.ok ∧
      ∃ out,
        (messagesM t fkey (sendM f t c ek iv skey now s).2).1
          = Resp.mk 200 (RBody.messages out) ∧
        Msg.mk f t c ek iv now ∈ out) ∧
    (∀ (s : FState) (f t c ek iv : String) (x y : FUser)
        (skey fkey : Option String) (now : Nat),
      strFalsy f = false → strFalsy t = false → strFalsy c = false →
      strFalsy ek = false → strFalsy iv = false →
      findUserF f s = some x → authFails skey x.token = false →
      findUserF t s = some y → authFails fkey y.token = false →
      (sendF f t c ek iv skey now s).1 = Resp.mk 200 RBody.ok ∧
      ∃ out,
        (messagesF t fkey (sendF f t c ek iv skey now s).2).1
          = Resp.mk 200 (RBody.messages out) ∧
        Msg.mk f t c ek iv now ∈ out) := by
  constructor
  · intro s f t c ek iv x y skey fkey now hf ht hc hek hiv hfx hax hfy hay
    have hv : (strFalsy f || strFalsy t || strFalsy c || strFalsy ek
        || strFalsy iv) = false := by
      rw [hf, ht, hc, hek, hiv]; rfl
    have hsend : sendM f t c ek iv skey now s
        = (Resp.mk 200 RBody.ok,
           MState.mk s.users
             (s.messages ++ [Msg.mk f t c ek iv now])) := by
      simp [sendM, hv, hfx, hax]
    refine ⟨by rw [hsend], ?_⟩
    have hfy' : findUserM t
        (MState.mk s.users (s.messages ++ [Msg.mk f t c ek iv now]))
        = some y := hfy
    refine ⟨sortTs ((s.messages ++ [Msg.mk f t c ek iv now]).filter
      (fun m => m.to_ = t)), ?_, ?_⟩
    · rw [hsend]
      simp [messagesM, hfy', hay]
    · refine (mem_sortTs _ _).mpr (List.mem_filter.mpr ⟨?_, ?_⟩)
      · exact List.mem_append.mpr (Or.inr (List.mem_singleton.mpr rfl))
      · simp
  · intro s f t c ek iv x y skey fkey now hf ht hc hek hiv hfx hax hfy hay
    have hv : (strFalsy f || strFalsy t || strFalsy c || strFalsy ek
        || strFalsy iv) = false := by
      rw [hf, ht, hc, hek, hiv]; rfl
    have hsend : sendF f t c ek iv skey now s
        = (Resp.mk 200 RBody.ok,
           FState.mk s.users
             (s.messages ++ [Msg.mk f t c ek iv now])) := by
      simp [sendF, hv, hfx, hax]
    refine ⟨by rw [hsend], ?_⟩
    have hfy' : findUserF t
        (FState.mk s.users (s.messages ++ [Msg.mk f t c ek iv now]))
        = some y := hfy
    refine ⟨(s.messages ++ [Msg.mk f t c ek iv now]).filter
      (fun m => m.to_ = t), ?_, ?_⟩
    · rw [hsend]
      simp [messagesF, hfy', hay]
    · refine List.mem_filter.mpr ⟨?_, ?_⟩
      · exact List.mem_append.mpr (Or.inr (List.mem_singleton.mpr rfl))
      · simp

/-- C7 witness: alice sends a concrete payload to bob; bob's fetch in
each variant returns a list containing precisely that payload with the
send timestamp. -/
theorem c7_roundtrip_witness :
    ((sendM "alice" "bob" "CT" "EK" "IV" (some "ta") 9
        (MState.mk [MUser.mk "alice" "PA" "ta" 0, MUser.mk "bob" "PB" "tb" 1]
          [])).1 = Resp.mk 200 RBody.ok ∧
      ∃ out,
        (messagesM "bob" (some "tb")
          (sendM "alice" "bob" "CT" "EK" "IV" (some "ta") 9
            (MState.mk [MUser.mk "alice" "PA" "ta" 0, MUser.mk "bob" "PB" "tb" 1]
              [])).2).1 = Resp.mk 200 (RBody.messages out) ∧
        Msg.mk "alice" "bob" "CT" "EK" "IV" 9 ∈ out) ∧
    ((sendF "alice" "bob" "CT" "EK" "IV" (some "ta") 9
        (FState.mk [("alice", FUser.mk "PA" "ta" 0), ("bob", FUser.mk "PB" "tb" 1)]
          [])).1 = Resp.mk 200 RBody.ok ∧
      ∃ out,
        (messagesF "bob" (some "tb")
          (sendF "alice" "bob" "CT" "EK" "IV" (some "ta") 9
            (FState.mk [("alice", FUser.mk "PA" "ta" 0), ("bob", FUser.mk "PB" "tb" 1)]
              [])).2).1 = Resp.mk 200 (RBody.messages out) ∧
        Msg.mk "alice" "bob" "CT" "EK" "IV" 9 ∈ out) := by
  constructor
  · exact c7_roundtrip.1
      (MState.mk [MUser.mk "alice" "PA" "ta" 0, MUser.mk "bob" "PB" "tb" 1] [])
      "alice" "bob" "CT" "EK" "IV"
      (MUser.mk "alice" "PA" "ta" 0) (MUser.mk "bob" "PB" "tb" 1)
      (some "ta") (some "tb") 9 rfl rfl rfl rfl rfl
      (by decide) (by decide) (by decide) (by decide)
  · exact c7_roundtrip.2
      (FState.mk [("alice", FUser.mk "PA" "ta" 0), ("bob", FUser.mk "PB" "tb" 1)] [])
      "alice" "bob" "CT" "EK" "IV"
      (FUser.mk "PA" "ta" 0) (FUser.mk "PB" "tb" 1)
      (some "ta") (some "tb") 9 rfl rfl rfl rfl rfl
      (by decide) (by decide) (by decide) (by decide)

theorem setUser_overwrite {α : Type} (l : List (String × α)) (U : String)
    (w v : α) (h : ∀ q ∈ l, q.1 ≠ U) :
    setUser (l ++ [(U, w)]) U v = l ++ [(U, v)] := by
  induction l with
  | nil => simp [setUser]
  | cons q rest ih =>
      obtain ⟨qk, qv⟩ := q
      have hq : qk ≠ U := h (qk, qv) (List.mem_cons_self _ _)
      simp only [List.cons_append, setUser, if_neg hq]
      exact congrArg (List.cons (qk, qv))
        (ih (fun p hp => h p (List.mem_cons_of_mem _ hp)))

/-- C1 counterexample: in the flat-file variant, registering alice twice
from the empty store returns the first generated token and then the
second generated token — two different tokens — and the second
registration mutates the store. -/
theorem c1_counterexample :
    (registerF "alice" "K1" "t1" 0 (FState.mk [] [])).1
      = Resp.mk 200 (RBody.token "t1") ∧
    (registerF "alice" "K2" "t2" 1
        (registerF "alice" "K1" "t1" 0 (FState.mk [] [])).2).1
      = Resp.mk 200 (RBody.token "t2") ∧
    RBody.token "t2" ≠ RBody.token "t1" ∧
    (registerF "alice" "K2" "t2" 1
        (registerF "alice" "K1" "t1" 0 (FState.mk [] [])).2).2
      ≠ (registerF "alice" "K1" "t1" 0 (FState.mk [] [])).2 := by
  exact ⟨rfl, rfl, by decide, by decide⟩

/-- C1 amended: registration is idempotent by username in the MongoDB
variant only.  There, a second registration of the same username returns
the token issued the first time, performs no mutation, and the store
holds exactly one User record for the name.  In the flat-file variant a
repeat registration instead overwrites the record: it returns the
freshly generated token of the second call and the stored record
becomes the new key material with the new token. -/
theorem c1_registration_contrast :
    (∀ (s : MState) (U K1 K2 t1 t2 : String) (n1 n2 : Nat),
      strFalsy U = false → strFalsy K1 = false → strFalsy K2 = false →
      (∀ x ∈ s.users, x.username ≠ U) →
      (registerM U K1 t1 n1 s).1 = Resp.mk 200 (RBody.token t1) ∧
      (registerM U K2 t2 n2 (registerM U K1 t1 n1 s).2).1
        = Resp.mk 200 (RBody.token t1) ∧
      (registerM U K2 t2 n2 (registerM U K1 t1 n1 s).2).2
        = (registerM U K1 t1 n1 s).2 ∧
      ((registerM U K1 t1 n1 s).2.users.filter
        (fun x => x.username = U)).length = 1) ∧
    (∀ (s : FState) (U K1 K2 t1 t2 : String) (n1 n2 : Nat),
      strFalsy U = false → strFalsy K1 = false → strFalsy K2 = false →
      (∀ q ∈ s.users, q.1 ≠ U) →
      (registerF U K1 t1 n1 s).1 = Resp.mk 200 (RBody.token t1) ∧
      (registerF U K2 t2 n2 (registerF U K1 t1 n1 s).2).1
        = Resp.mk 200 (RBody.token t2) ∧
      findUserF U (registerF U K2 t2 n2 (registerF U K1 t1 n1 s).2).2
        = some (FUser.mk K2 t2 n2)) := by
  constructor
  · intro s U K1 K2 t1 t2 n1 n2 hU hK1 hK2 hfresh
    have hv1 : (strFalsy U || strFalsy K1) = false := by rw [hU, hK1]; rfl
    have hv2 : (strFalsy U || strFalsy K2) = false := by rw [hU, hK2]; rfl
    have hfind : findUserM U s = none := findUserM_none U s hfresh
    have hreg1 : registerM U K1 t1 n1 s
        = (Resp.mk 200 (RBody.token t1),
           MState.mk (s.users ++ [MUser.mk U K1 t1 n1]) s.messages) := by
      simp [registerM, hv1, hfind]
    have hfind0 : s.users.find? (fun x => x.username = U) = none := hfind
    have hfind2 : findUserM U
        (MState.mk (s.users ++ [MUser.mk U K1 t1 n1]) s.messages)
        = some (MUser.mk U K1 t1 n1) := by
      simp [findUserM, List.find?_append, hfind0]
    have hreg2 : registerM U K2 t2 n2
        (MState.mk (s.users ++ [MUser.mk U K1 t1 n1]) s.messages)
        = (Resp.mk 200 (RBody.token t1),
           MState.mk (s.users ++ [MUser.mk U K1 t1 n1]) s.messages) := by
      simp [registerM, hv2, hfind2]
    have hnilf : s.users.filter (fun x => x.username = U) = [] :=
      List.filter_eq_nil_iff.mpr (by intro a ha; simp [hfresh a ha])
    refine ⟨by rw [hreg1], ?_, ?_, ?_⟩
    · rw [hreg1, hreg2]
    · rw [hreg1, hreg2]
    · rw [hreg1]
      simp [List.filter_append, hnilf]
  · intro s U K1 K2 t1 t2 n1 n2 hU hK1 hK2 hfresh
    have hv1 : (strFalsy U || strFalsy K1) = false := by rw [hU, hK1]; rfl
    have hv2 : (strFalsy U || strFalsy K2) = false := by rw [hU, hK2]; rfl
    have hreg1 : registerF U K1 t1 n1 s
        = (Resp.mk 200 (RBody.token t1),
           FState.mk (s.users ++ [(U, FUser.mk K1 t1 n1)]) s.messages) := by
      simp [registerF, hv1]
      rw [setUser_fresh s.users U _ hfresh]
    have hreg2 : registerF U K2 t2 n2
        (FState.mk (s.users ++ [(U, FUser.mk K1 t1 n1)]) s.messages)
        = (Resp.mk 200 (RBody.token t2),
           FState.mk (s.users ++ [(U, FUser.mk K2 t2 n2)]) s.messages) := by
      simp [registerF, hv2]
      rw [setUser_overwrite s.users U _ _ hfresh]
    have hfind0 : s.users.find? (fun p => p.1 = U) = none := by
      simp only [List.find?_eq_none]
      intro q hq
      simp [hfresh q hq]
    refine ⟨by rw [hreg1], ?_, ?_⟩
    · rw [hreg1, hreg2]
    · rw [hreg1, hreg2]
      simp [findUserF, List.find?_append, hfind0]

/-- C1 amended witness: registering alice twice from the empty store
returns t1 both times in the MongoDB variant with exactly one record,
while the flat-file variant returns t2 the second time and keeps the
overwritten record. -/
theorem c1_registration_contrast_witness :
    ((registerM "alice" "K1" "t1" 0 (MState.mk [] [])).1
        = Resp.mk 200 (RBody.token "t1") ∧
      (registerM "alice" "K2" "t2" 1
          (registerM "alice" "K1" "t1" 0 (MState.mk [] [])).2).1
        = Resp.mk 200 (RBody.token "t1") ∧
      (registerM "alice" "K2" "t2" 1
          (registerM "alice" "K1" "t1" 0 (MState.mk [] [])).2).2
        = (registerM "alice" "K1" "t1" 0 (MState.mk [] [])).2 ∧
      ((registerM "alice" "K1" "t1" 0 (MState.mk [] [])).2.users.filter
        (fun x => x.username = "alice")).length = 1) ∧
    ((registerF "alice" "K1" "t1" 0 (FState.mk [] [])).1
        = Resp.mk 200 (RBody.token "t1") ∧
      (registerF "alice" "K2" "t2" 1
          (registerF "alice" "K1" "t1" 0 (FState.mk [] [])).2).1
        = Resp.mk 200 (RBody.token "t2") ∧
      findUserF "alice" (registerF "alice" "K2" "t2" 1
          (registerF "alice" "K1" "t1" 0 (FState.mk [] [])).2).2
        = some (FUser.mk "K2" "t2" 1)) := by
  constructor
  · exact c1_registration_contrast.1 (MState.mk [] [])
      "alice" "K1" "K2" "t1" "t2" 0 1 rfl rfl rfl (by intro x hx; cases hx)
  · exact c1_registration_contrast.2 (FState.mk [] [])
      "alice" "K1" "K2" "t1" "t2" 0 1 rfl rfl rfl (by intro q hq; cases hq)

/-- C8 counterexample: with a corrupt (unparseable) users file, the
flat-file list-users handler answers 200 with the fallback empty list
instead of 500, and a registration answers 200 and persists a store
rebuilt from the fallback — store failure silently became success with
default data. -/
theorem c8_counterexample :
    usersFFile (FileData.corrupt "not json") = Resp.mk 200 (RBody.users []) ∧
    (200 : Nat) ≠ 500 ∧
    registerFFile "alice" "PEM" "tok" 0 (FileData.corrupt "garbled users data")
      = (Resp.mk 200 (RBody.token "tok"),
         FileData.stored [("alice", FUser.mk "PEM" "tok" 0)]) := by
  exact ⟨rfl, by decide, rfl⟩

/-- C8 amended: only the MongoDB variant maps store failure to 500 with
an error body (its catch block, shown here on the fetch handler, returns
500 for any thrown store operation and leaves state alone).  The
flat-file variant does not: readJson catches a read or parse failure and
silently substitutes the fallback, so a corrupt users file makes
list-users answer 200 with an empty user list, and makes register answer
200 while persisting a store rebuilt from the fallback, erasing the
previous contents. -/
theorem c8_error_handling_contrast :
    (∀ (u : String) (key : Option String) (s : MState),
      messagesMCaught true u key s
        = (Resp.mk 500 (RBody.error "internal error"), s)) ∧
    (∀ raw : String,
      usersFFile (FileData.corrupt raw) = Resp.mk 200 (RBody.users [])) ∧
    (∀ (u p tok : String) (now : Nat) (raw : String),
      strFalsy u = false → strFalsy p = false →
      registerFFile u p tok now (FileData.corrupt raw)
        = (Resp.mk 200 (RBody.token tok),
           FileData.stored [(u, FUser.mk p tok now)])) := by
  refine ⟨?_, ?_, ?_⟩
  · intro u key s
    rfl
  · intro raw
    rfl
  · intro u p tok now raw hu hp
    have hv : (strFalsy u || strFalsy p) = false := by rw [hu, hp]; rfl
    simp [registerFFile, hv, readJson, setUser]

/-- C8 amended witness: the MongoDB catch on a throwing fetch gives 500,
and a concrete register over a corrupt users file succeeds with the
fallback-rebuilt store. -/
theorem c8_error_handling_contrast_witness :
    messagesMCaught true "bob" (some "k") (MState.mk [] [])
      = (Resp.mk 500 (RBody.error "internal error"), MState.mk [] []) ∧
    usersFFile (FileData.corrupt "oops") = Resp.mk 200 (RBody.users []) ∧
    registerFFile "alice" "PEM" "tok" 0 (FileData.corrupt "oops")
      = (Resp.mk 200 (RBody.token "tok"),
         FileData.stored [("alice", FUser.mk "PEM" "tok" 0)]) := by
  refine ⟨?_, ?_, ?_⟩
  · exact c8_error_handling_contrast.1 "bob" (some "k") (MState.mk [] [])
  · exact c8_error_handling_contrast.2.1 "oops"
  · exact c8_error_handling_contrast.2.2 "alice" "PEM" "tok" 0 "oops" rfl rfl

/-- C10: body-field validation is pure JS truthiness, not a string-type
check.  The register handler rejects with 400 exactly when a field value
is falsy (absent, null, empty string, 0 or false); the five-field send
check is likewise exactly a falsiness test; and a truthy non-string
value passes: registering with the number 42 as username succeeds, the
number being coerced to the object key 42 and stored. -/
theorem c10_truthiness_validation :
    (∀ (u p : JSVal) (tok : String) (now : Nat)
        (users : List (String × FUserJS)),
      (registerFJS u p tok now users).1.status = 400
        ↔ (truthy u = false ∨ truthy p = false)) ∧
    (∀ f t c ek iv : JSVal,
      sendFieldsMissing f t c ek iv = true
        ↔ (truthy f = false ∨ truthy t = false ∨ truthy c = false ∨
            truthy ek = false ∨ truthy iv = false)) ∧
    registerFJS (JSVal.num 42) (JSVal.str "PEM") "tok" 5 []
      = (Resp.mk 200 (RBody.token "tok"),
         [("42", FUserJS.mk (JSVal.str "PEM") "tok" 5)]) := by
  refine ⟨?_, ?_, ?_⟩
  · intro u p tok now users
    have hiff : registerFieldsMissing u p = true
        ↔ (truthy u = false ∨ truthy p = false) := by
      simp [registerFieldsMissing]
    by_cases hm : registerFieldsMissing u p = true
    · constructor
      · intro _
        exact hiff.mp hm
      · intro _
        simp [registerFJS, hm]
    · constructor
      · intro hst
        have h200 : (registerFJS u p tok now users).1.status = 200 := by
          simp [registerFJS, hm]
        rw [h200] at hst
        exact absurd hst (by decide)
      · intro hfals
        exact absurd (hiff.mpr hfals) hm
  · intro f t c ek iv
    simp [sendFieldsMissing]
    tauto
  · rfl

theorem insertTsD_append_of_le (m : String × Msg) (l : List (String × Msg))
    (h : ∀ x ∈ l, x.2.timestamp ≤ m.2.timestamp) :
    insertTsD m l = l ++ [m] := by
  induction l with
  | nil => simp [insertTsD]
  | cons x xs ih =>
      have hx : x.2.timestamp ≤ m.2.timestamp := h x (List.mem_cons_self x xs)
      simp only [insertTsD, if_pos hx, List.cons_append]
      rw [ih (fun y hy => h y (List.mem_cons_of_mem x hy))]

theorem foldlInsertD_of_sorted (l : List (String × Msg)) :
    ∀ acc : List (String × Msg), sortedTsD (acc ++ l) →
      l.foldl (fun a m => insertTsD m a) acc = acc ++ l := by
  induction l with
  | nil => intro acc _; simp
  | cons x xs ih =>
      intro acc h
      have hax : ∀ y ∈ acc, y.2.timestamp ≤ x.2.timestamp := by
        intro y hy
        have := (List.pairwise_append.mp h).2.2
        exact this y hy x (List.mem_cons_self x xs)
      simp only [List.foldl_cons]
      rw [insertTsD_append_of_le x acc hax]
      have h2 : sortedTsD ((acc ++ [x]) ++ xs) := by
        simpa using h
      rw [ih (acc ++ [x]) h2]
      simp

theorem sortTsD_of_sorted (l : List (String × Msg)) (h : sortedTsD l) :
    sortTsD l = l := by
  have := foldlInsertD_of_sorted l [] (by simpa using h)
  simpa [sortTsD] using this

theorem jsEnumOrder_of_plainKeys {α : Type} (l : List (String × α))
    (h : ∀ p ∈ l, isArrayIndexKey p.1 = false) :
    jsEnumOrder l = l := by
  have h1 : l.filter (fun p => isArrayIndexKey p.1) = [] :=
    List.filter_eq_nil_iff.mpr (by intro p hp; simp [h p hp])
  have h2 : l.filter (fun p => !isArrayIndexKey p.1) = l :=
    List.filter_eq_self.mpr (by intro p hp; simp [h p hp])
  simp [jsEnumOrder, h1, h2, sortIdx]

theorem findUserFX_corr (u : String) (ms : MStateX) (fs : FState)
    (hu : fs.users = ms.users.map toFUser) :
    findUserF u fs = (findUserMX u ms).map toFU := by
  simp only [findUserF, findUserMX, hu, List.find?_map]
  have hp : ((fun p : String × FUser => decide (p.1 = u)) ∘ toFUser)
      = (fun x : MUser => decide (x.username = u)) := rfl
  rw [hp, Option.map_map]
  rfl

theorem findUserMX_none (n : String) (s : MStateX)
    (h : ∀ u ∈ s.users, u.username ≠ n) : findUserMX n s = none := by
  simp only [findUserMX, List.find?_eq_none]
  intro x hx
  simp [h x hx]

theorem jsPlainKey_not_index (s : String) (h : jsPlainKey s = true) :
    isArrayIndexKey s = false := by
  have := (Bool.and_eq_true _ _).mp h
  simpa using this.1

theorem registerStepX (u p : String) (e : REnvX) (ms : MStateX) (fs : FState)
    (hc : corrX ms fs) (hfresh : ∀ x ∈ ms.users, x.username ≠ u)
    (hkeys : ∀ x ∈ ms.users, isArrayIndexKey x.username = false)
    (hux : isArrayIndexKey u = false) :
    scrubResp (registerMX u p e.freshTok e.now ms).1
      = (registerFX u p e.freshTok e.now fs).1 ∧
    corrX (registerMX u p e.freshTok e.now ms).2
      (registerFX u p e.freshTok e.now fs).2 ∧
    (registerMX u p e.freshTok e.now ms).2.messages = ms.messages ∧
    ((registerMX u p e.freshTok e.now ms).2.users = ms.users ∨
      (registerMX u p e.freshTok e.now ms).2.users
        = ms.users ++ [MUser.mk u p e.freshTok e.now]) := by
  by_cases hv : (strFalsy u || strFalsy p) = true
  · refine ⟨?_, ?_, ?_, Or.inl ?_⟩
    · simp only [registerMX, registerFX, if_pos hv, scrubResp, scrubBody]
    · simp only [registerMX, registerFX, if_pos hv]
      exact hc
    · simp only [registerMX, if_pos hv]
    · simp only [registerMX, if_pos hv]
  · have hfind : findUserMX u ms = none := findUserMX_none u ms hfresh
    have hkeysF : ∀ q ∈ fs.users, q.1 ≠ u := by
      intro q hq
      rw [hc.1] at hq
      rcases List.mem_map.mp hq with ⟨x, hx, rfl⟩
      exact hfresh x hx
    have hplainF : ∀ q ∈ fs.users ++ [(u, FUser.mk p e.freshTok e.now)],
        isArrayIndexKey q.1 = false := by
      intro q hq
      rcases List.mem_append.mp hq with hq | hq
      · rw [hc.1] at hq
        rcases List.mem_map.mp hq with ⟨x, hx, rfl⟩
        exact hkeys x hx
      · rw [List.mem_singleton.mp hq]
        exact hux
    have hsetF : jsEnumOrder
        (setUser fs.users u (FUser.mk p e.freshTok e.now))
        = fs.users ++ [(u, FUser.mk p e.freshTok e.now)] := by
      rw [setUser_fresh fs.users u _ hkeysF]
      exact jsEnumOrder_of_plainKeys _ hplainF
    refine ⟨?_, ⟨?_, ?_⟩, ?_, Or.inr ?_⟩
    · simp only [registerMX, registerFX, if_neg hv, hfind, scrubResp, scrubBody]
    · simp only [registerMX, registerFX, if_neg hv, hfind]
      rw [hsetF, hc.1]
      simp only [List.map_append, List.map_cons, List.map_nil]
      rfl
    · simp only [registerMX, registerFX, if_neg hv, hfind]
      exact hc.2
    · simp only [registerMX, if_neg hv, hfind]
    · simp only [registerMX, if_neg hv, hfind]

theorem publicKeyStepX (u : String) (ms : MStateX) (fs : FState)
    (hc : corrX ms fs) :
    scrubResp (publicKeyMX u ms).1 = (publicKeyFX u fs).1 ∧
    (publicKeyMX u ms).2 = ms ∧ (publicKeyFX u fs).2 = fs := by
  have h := findUserFX_corr u ms fs hc.1
  cases hfind : findUserMX u ms with
  | none =>
      rw [hfind] at h
      refine ⟨?_, ?_, ?_⟩ <;>
        simp only [publicKeyMX, publicKeyFX, hfind, h, Option.map_none',
          scrubResp, scrubBody]
  | some x =>
      rw [hfind] at h
      refine ⟨?_, ?_, ?_⟩ <;>
        simp only [publicKeyMX, publicKeyFX, hfind, h, Option.map_some',
          toFU, scrubResp, scrubBody]

theorem sendStepX (f t c k i : String) (a : Option String) (e : REnvX)
    (ms : MStateX) (fs : FState) (hc : corrX ms fs) :
    scrubResp (sendMX f t c k i a e.freshId e.now ms).1
      = (sendFX f t c k i a e.now fs).1 ∧
    corrX (sendMX f t c k i a e.freshId e.now ms).2
      (sendFX f t c k i a e.now fs).2 ∧
    (sendMX f t c k i a e.freshId e.now ms).2.users = ms.users ∧
    ((sendMX f t c k i a e.freshId e.now ms).2.messages = ms.messages ∨
      (sendMX f t c k i a e.freshId e.now ms).2.messages
        = ms.messages ++ [(e.freshId, Msg.mk f t c k i e.now)]) := by
  have hl := findUserFX_corr f ms fs hc.1
  by_cases hv : (strFalsy f || strFalsy t || strFalsy c || strFalsy k
      || strFalsy i) = true
  · refine ⟨?_, ?_, ?_, Or.inl ?_⟩ <;>
      simp only [sendMX, sendFX, if_pos hv, scrubResp, scrubBody]
    exact hc
  · cases hfind : findUserMX f ms with
    | none =>
        rw [hfind] at hl
        refine ⟨?_, ?_, ?_, Or.inl ?_⟩ <;>
          simp only [sendMX, sendFX, if_neg hv, hfind, hl, Option.map_none',
            scrubResp, scrubBody]
        exact hc
    | some x =>
        rw [hfind] at hl
        by_cases ha : authFails a x.token = true
        · refine ⟨?_, ?_, ?_, Or.inl ?_⟩ <;>
            simp only [sendMX, sendFX, if_neg hv, hfind, hl, Option.map_some',
              toFU, if_pos ha, scrubResp, scrubBody]
          exact hc
        · refine ⟨?_, ⟨?_, ?_⟩, ?_, Or.inr ?_⟩ <;>
            simp only [sendMX, sendFX, if_neg hv, hfind, hl, Option.map_some',
              toFU, if_neg ha, scrubResp, scrubBody]
          · exact hc.1
          · rw [hc.2]
            simp

theorem fetchStepX (u : String) (a : Option String) (ms : MStateX)
    (fs : FState) (hc : corrX ms fs) (hs : sortedTsD ms.messages) :
    scrubResp (messagesMX u a ms).1 = (messagesFX u a fs).1 ∧
    (messagesMX u a ms).2 = ms ∧ (messagesFX u a fs).2 = fs := by
  have hl := findUserFX_corr u ms fs hc.1
  cases hfind : findUserMX u ms with
  | none =>
      rw [hfind] at hl
      refine ⟨?_, ?_, ?_⟩ <;>
        simp only [messagesMX, messagesFX, hfind, hl, Option.map_none',
          scrubResp, scrubBody]
  | some x =>
      rw [hfind] at hl
      by_cases ha : authFails a x.token = true
      · refine ⟨?_, ?_, ?_⟩ <;>
          simp only [messagesMX, messagesFX, hfind, hl, Option.map_some',
            toFU, if_pos ha, scrubResp, scrubBody]
      · have hsf : sortedTsD (ms.messages.filter (fun m => m.2.to_ = u)) :=
          List.Pairwise.sublist (List.filter_sublist _) hs
        refine ⟨?_, ?_, ?_⟩ <;>
          simp only [messagesMX, messagesFX, hfind, hl, Option.map_some',
            toFU, if_neg ha, scrubResp, scrubBody]
        rw [sortTsD_of_sorted _ hsf, hc.2, List.filter_map]
        rfl

theorem usersStepX (ms : MStateX) (fs : FState) (hc : corrX ms fs) :
    scrubResp (usersMX ms).1 = (usersFX fs).1 ∧
    (usersMX ms).2 = ms ∧ (usersFX fs).2 = fs := by
  refine ⟨?_, rfl, rfl⟩
  simp only [usersMX, usersFX, hc.1, List.map_map, scrubResp, scrubBody]
  rfl

theorem runCorrEqX (rs : List (Req × REnvX)) :
    ∀ (ms : MStateX) (fs : FState),
      corrX ms fs →
      sortedTsD ms.messages →
      (∀ m ∈ ms.messages, ∀ q ∈ rs, m.2.timestamp ≤ q.2.now) →
      rs.Pairwise (fun a b => a.2.now ≤ b.2.now) →
      (regNamesX rs).Nodup →
      (∀ n ∈ regNamesX rs, ∀ x ∈ ms.users, x.username ≠ n) →
      (∀ q ∈ rs, reqNamesPlain q.1 = true) →
      (∀ x ∈ ms.users, isArrayIndexKey x.username = false) →
      ((runMX rs ms).1.map scrubResp) = (runFX rs fs).1 := by
  induction rs with
  | nil => intro ms fs _ _ _ _ _ _ _ _; rfl
  | cons head rest ih =>
      obtain ⟨r, e⟩ := head
      intro ms fs hc hsort hbound hpw hnd hdisj hplain hkeys
      have hpw' : rest.Pairwise (fun a b => a.2.now ≤ b.2.now) :=
        (List.pairwise_cons.mp hpw).2
      have hhd : ∀ q ∈ rest, e.now ≤ q.2.now :=
        fun q hq => (List.pairwise_cons.mp hpw).1 q hq
      have hplain' : ∀ q ∈ rest, reqNamesPlain q.1 = true :=
        fun q hq => hplain q (List.mem_cons_of_mem _ hq)
      cases r with
      | register u p =>
          have hnames : regNamesX ((Req.register u p, e) :: rest)
              = u :: regNamesX rest := rfl
          rw [hnames] at hnd hdisj
          have hfresh : ∀ x ∈ ms.users, x.username ≠ u :=
            hdisj u (List.mem_cons_self _ _)
          have hupl : jsPlainKey u = true :=
            hplain (Req.register u p, e) (List.mem_cons_self _ _)
          have hux : isArrayIndexKey u = false := jsPlainKey_not_index u hupl
          obtain ⟨h1, h2, h3, h4⟩ :=
            registerStepX u p e ms fs hc hfresh hkeys hux
          simp only [runMX, runFX, stepMX, stepFX, List.map_cons]
          rw [h1]
          congr 1
          refine ih _ _ h2 ?_ ?_ hpw' (List.nodup_cons.mp hnd).2 ?_ hplain' ?_
          · rw [h3]; exact hsort
          · rw [h3]
            intro m hm q hq
            exact hbound m hm q (List.mem_cons_of_mem _ hq)
          · intro n hn x hx
            rcases h4 with h4 | h4
            · rw [h4] at hx
              exact hdisj n (List.mem_cons_of_mem _ hn) x hx
            · rw [h4] at hx
              rcases List.mem_append.mp hx with hx | hx
              · exact hdisj n (List.mem_cons_of_mem _ hn) x hx
              · have hxu : x = MUser.mk u p e.freshTok e.now :=
                  List.mem_singleton.mp hx
                rw [hxu]
                intro hcon
                have hun : u = n := hcon
                exact (List.nodup_cons.mp hnd).1 (hun ▸ hn)
          · intro x hx
            rcases h4 with h4 | h4
            · rw [h4] at hx
              exact hkeys x hx
            · rw [h4] at hx
              rcases List.mem_append.mp hx with hx | hx
              · exact hkeys x hx
              · rw [List.mem_singleton.mp hx]
                exact hux
      | publicKey u =>
          obtain ⟨h1, h2, h3⟩ := publicKeyStepX u ms fs hc
          simp only [runMX, runFX, stepMX, stepFX, List.map_cons]
          rw [h1]
          congr 1
          rw [h2, h3]
          refine ih _ _ hc hsort ?_ hpw' hnd ?_ hplain' hkeys
          · intro m hm q hq
            exact hbound m hm q (List.mem_cons_of_mem _ hq)
          · intro n hn x hx
            exact hdisj n hn x hx
      | send f t c k i a =>
          obtain ⟨h1, h2, h3, h4⟩ := sendStepX f t c k i a e ms fs hc
          simp only [runMX, runFX, stepMX, stepFX, List.map_cons]
          rw [h1]
          congr 1
          refine ih _ _ h2 ?_ ?_ hpw' hnd ?_ hplain' ?_
          · rcases h4 with h4 | h4
            · rw [h4]; exact hsort
            · rw [h4]
              refine List.pairwise_append.mpr
                ⟨hsort, List.pairwise_singleton _ _, ?_⟩
              intro x hx b hb
              have hb' : b = (e.freshId, Msg.mk f t c k i e.now) :=
                List.mem_singleton.mp hb
              rw [hb']
              exact hbound x hx (Req.send f t c k i a, e)
                (List.mem_cons_self _ _)
          · intro m hm q hq
            rcases h4 with h4 | h4
            · rw [h4] at hm
              exact hbound m hm q (List.mem_cons_of_mem _ hq)
            · rw [h4] at hm
              rcases List.mem_append.mp hm with hm | hm
              · exact hbound m hm q (List.mem_cons_of_mem _ hq)
              · have hm' : m = (e.freshId, Msg.mk f t c k i e.now) :=
                  List.mem_singleton.mp hm
                rw [hm']
                exact hhd q hq
          · intro n hn x hx
            rw [h3] at hx
            exact hdisj n hn x hx
          · intro x hx
            rw [h3] at hx
            exact hkeys x hx
      | fetch u a =>
          obtain ⟨h1, h2, h3⟩ := fetchStepX u a ms fs hc hsort
          simp only [runMX, runFX, stepMX, stepFX, List.map_cons]
          rw [h1]
          congr 1
          rw [h2, h3]
          refine ih _ _ hc hsort ?_ hpw' hnd ?_ hplain' hkeys
          · intro m hm q hq
            exact hbound m hm q (List.mem_cons_of_mem _ hq)
          · intro n hn x hx
            exact hdisj n hn x hx
      | listUsers =>
          obtain ⟨h1, h2, h3⟩ := usersStepX ms fs hc
          simp only [runMX, runFX, stepMX, stepFX, List.map_cons]
          rw [h1]
          congr 1
          rw [h2, h3]
          refine ih _ _ hc hsort ?_ hpw' hnd ?_ hplain' hkeys
          · intro m hm q hq
            exact hbound m hm q (List.mem_cons_of_mem _ hq)
          · intro n hn x hx
            exact hdisj n hn x hx

/-- C2 counterexample: three client-visible divergences, each at a
concrete input with both variants fed identical generated tokens, ids
and timestamps.  First, registering alice twice and then sending with
the first token gives statuses 200,200,200 against MongoDB but
200,200,401 against the flat file (the repeat registration rotated the
flat-file token).  Second, registering bob then the integer-like name 42
makes list-users answer bob,42 from MongoDB (collection order) but
42,bob from the flat file (ECMAScript enumeration puts array-index keys
first).  Third, a fetched message body from MongoDB carries the
driver-generated _id while the flat-file body does not, so the bodies
differ even though the payloads agree. -/
theorem c2_counterexample :
    (runMX [(Req.register "alice" "PEM", REnvX.mk "t1" "i1" 0),
            (Req.register "alice" "PEM", REnvX.mk "t2" "i2" 1),
            (Req.send "alice" "bob" "c" "ek" "iv" (some "t1"),
              REnvX.mk "t3" "i3" 2)]
        (MStateX.mk [] [])).1.map (fun r => r.status) = [200, 200, 200] ∧
    (runFX [(Req.register "alice" "PEM", REnvX.mk "t1" "i1" 0),
            (Req.register "alice" "PEM", REnvX.mk "t2" "i2" 1),
            (Req.send "alice" "bob" "c" "ek" "iv" (some "t1"),
              REnvX.mk "t3" "i3" 2)]
        (FState.mk [] [])).1.map (fun r => r.status) = [200, 200, 401] ∧
    ([200, 200, 200] : List Nat) ≠ [200, 200, 401] ∧
    (runMX [(Req.register "bob" "PB", REnvX.mk "tb" "ib" 0),
            (Req.register "42" "P4", REnvX.mk "tc" "ic" 1),
            (Req.listUsers, REnvX.mk "td" "id" 2)]
        (MStateX.mk [] [])).1.map (fun r => r.body)
      = [RBodyX.token "tb", RBodyX.token "tc", RBodyX.users ["bob", "42"]] ∧
    (runFX [(Req.register "bob" "PB", REnvX.mk "tb" "ib" 0),
            (Req.register "42" "P4", REnvX.mk "tc" "ic" 1),
            (Req.listUsers, REnvX.mk "td" "id" 2)]
        (FState.mk [] [])).1.map (fun r => r.body)
      = [RBodyX.token "tb", RBodyX.token "tc", RBodyX.users ["42", "bob"]] ∧
    RBodyX.users ["bob", "42"] ≠ RBodyX.users ["42", "bob"] ∧
    (runMX [(Req.register "alice" "PEM", REnvX.mk "ta" "ia" 0),
            (Req.send "alice" "alice" "c" "ek" "iv" (some "ta"),
              REnvX.mk "tb" "ib" 1),
            (Req.fetch "alice" (some "ta"), REnvX.mk "tc" "ic" 2)]
        (MStateX.mk [] [])).1.map (fun r => r.body)
      = [RBodyX.token "ta", RBodyX.ok,
         RBodyX.messagesWithId [("ib", Msg.mk "alice" "alice" "c" "ek" "iv" 1)]] ∧
    (runFX [(Req.register "alice" "PEM", REnvX.mk "ta" "ia" 0),
            (Req.send "alice" "alice" "c" "ek" "iv" (some "ta"),
              REnvX.mk "tb" "ib" 1),
            (Req.fetch "alice" (some "ta"), REnvX.mk "tc" "ic" 2)]
        (FState.mk [] [])).1.map (fun r => r.body)
      = [RBodyX.token "ta", RBodyX.ok,
         RBodyX.messages [Msg.mk "alice" "alice" "c" "ek" "iv" 1]] ∧
    RBodyX.messagesWithId [("ib", Msg.mk "alice" "alice" "c" "ek" "iv" 1)]
      ≠ RBodyX.messages [Msg.mk "alice" "alice" "c" "ek" "iv" 1] := by
  exact ⟨rfl, rfl, by decide, rfl, rfl, by decide, rfl, rfl, by decide⟩

/-- C2 amended: the implementations are not behaviorally equivalent, but
a scoped equivalence holds.  For every request sequence that never
registers a username twice and mentions only plain usernames — not
array-index strings, whose enumeration position differs, and not
Object.prototype property names, whose JS property access is inherited —
with non-decreasing timestamps and both variants fed the same generated
tokens and ids from empty stores, the response sequences coincide once
the driver-generated _id is erased from fetched message documents (the
flat-file responses carry no _id and are compared as produced). -/
theorem c2_equivalence_scrubbed :
    ∀ (rs : List (Req × REnvX)),
      rs.Pairwise (fun a b => a.2.now ≤ b.2.now) →
      (regNamesX rs).Nodup →
      (∀ q ∈ rs, reqNamesPlain q.1 = true) →
      ((runMX rs (MStateX.mk [] [])).1.map scrubResp)
        = (runFX rs (FState.mk [] [])).1 := by
  intro rs hpw hnd hplain
  refine runCorrEqX rs (MStateX.mk [] []) (FState.mk [] [])
    ⟨rfl, rfl⟩ List.Pairwise.nil ?_ hpw hnd ?_ hplain ?_
  · intro m hm q hq
    cases hm
  · intro n hn x hx
    cases hx
  · intro x hx
    cases hx

/-- C2 amended witness: a five-request happy path (two registrations, a
send, a fetch, a user listing) with increasing timestamps, distinct
plain usernames and shared generated values yields, after _id erasure,
identical response sequences in the two variants. -/
theorem c2_equivalence_scrubbed_witness :
    ([(Req.register "alice" "PA", REnvX.mk "ta" "ia" 0),
      (Req.register "bob" "PB", REnvX.mk "tb" "ib" 1),
      (Req.send "alice" "bob" "c" "ek" "iv" (some "ta"), REnvX.mk "tc" "ic" 2),
      (Req.fetch "bob" (some "tb"), REnvX.mk "td" "idd" 3),
      (Req.listUsers, REnvX.mk "te" "ie" 4)].Pairwise
        (fun a b => a.2.now ≤ b.2.now)) ∧
    (regNamesX [(Req.register "alice" "PA", REnvX.mk "ta" "ia" 0),
      (Req.register "bob" "PB", REnvX.mk "tb" "ib" 1),
      (Req.send "alice" "bob" "c" "ek" "iv" (some "ta"), REnvX.mk "tc" "ic" 2),
      (Req.fetch "bob" (some "tb"), REnvX.mk "td" "idd" 3),
      (Req.listUsers, REnvX.mk "te" "ie" 4)]).Nodup ∧
    (∀ q ∈ [(Req.register "alice" "PA", REnvX.mk "ta" "ia" 0),
      (Req.register "bob" "PB", REnvX.mk "tb" "ib" 1),
      (Req.send "alice" "bob" "c" "ek" "iv" (some "ta"), REnvX.mk "tc" "ic" 2),
      (Req.fetch "bob" (some "tb"), REnvX.mk "td" "idd" 3),
      (Req.listUsers, REnvX.mk "te" "ie" 4)], reqNamesPlain q.1 = true) ∧
    ((runMX [(Req.register "alice" "PA", REnvX.mk "ta" "ia" 0),
      (Req.register "bob" "PB", REnvX.mk "tb" "ib" 1),
      (Req.send "alice" "bob" "c" "ek" "iv" (some "ta"), REnvX.mk "tc" "ic" 2),
      (Req.fetch "bob" (some "tb"), REnvX.mk "td" "idd" 3),
      (Req.listUsers, REnvX.mk "te" "ie" 4)] (MStateX.mk [] [])).1.map scrubResp)
      = (runFX [(Req.register "alice" "PA", REnvX.mk "ta" "ia" 0),
          (Req.register "bob" "PB", REnvX.mk "tb" "ib" 1),
          (Req.send "alice" "bob" "c" "ek" "iv" (some "ta"), REnvX.mk "tc" "ic" 2),
          (Req.fetch "bob" (some "tb"), REnvX.mk "td" "idd" 3),
          (Req.listUsers, REnvX.mk "te" "ie" 4)] (FState.mk [] [])).1 := by
  refine ⟨by decide, by decide, by decide, ?_⟩
  exact c2_equivalence_scrubbed
    [(Req.register "alice" "PA", REnvX.mk "ta" "ia" 0),
     (Req.register "bob" "PB", REnvX.mk "tb" "ib" 1),
     (Req.send "alice" "bob" "c" "ek" "iv" (some "ta"), REnvX.mk "tc" "ic" 2),
     (Req.fetch "bob" (some "tb"), REnvX.mk "td" "idd" 3),
     (Req.listUsers, REnvX.mk "te" "ie" 4)] (by decide) (by decide) (by decide)
